import Mathlib

/-!
# Atlantis: execution planner and raw project validation

A shallow embedding of

* `server/events/runtime/execution_planner.go` (`ExecutionPlanner.BuildPlanStage`,
  `BuildApplyStage`, `buildStage`, `buildMeta`, `defaultPlanSteps`, `defaultApplySteps`), and
* `server/events/yaml/raw/project.go` (`Project.Validate`, `Project.ToValid`),

followed by theorems about them.

Conventions of the embedding.

* A Go `string` is a Lean `String`; a Go slice `[]T` is a `List T` (the `nil` slice is `[]`);
  a Go pointer `*T` or an interface value that may be `nil` is an `Option T`.
* A Go `error` is an `Option GoError` (`none` is the `nil` error); a Go function returning
  `(*T, error)` with exactly one of the two set is an `Except GoError T`.
* A run-time panic (a `nil` dereference) is the explicit outcome `Result.panic`.
* `log.Info` calls only write to the logger collaborator and do not influence any returned value;
  they are left out.
* Functions of the Go standard library and of third-party packages are either transcribed
  (`strings.Contains`, `strconv.Quote`, the `ozzo-validation` combinators) or, where their
  behaviour rests on large tables or on the host platform, taken as fields of `Stdlib`.
-/

namespace Atlantis

/-! ## Go runtime values -/

/-- Go `error` values that occur in the two files. `notExist` stands for the errors on which
`os.IsNotExist` answers `true` (a `*os.PathError` carrying `ENOENT`); `errorString` is what
`errors.New` and `fmt.Errorf` build; `withMessage` is what `errors.Wrapf` of `pkg/errors`
builds around a non-nil cause. -/
inductive GoError where
  | notExist (msg : String)
  | errorString (msg : String)
  | withMessage (cause : GoError) (msg : String)
  deriving DecidableEq, Repr

namespace GoError

/-- The `Error()` method: the message of the error. -/
def Error : GoError → String
  | notExist msg => msg
  | errorString msg => msg
  | withMessage cause msg => msg ++ ": " ++ cause.Error

end GoError

/-- Go `os.IsNotExist(err)`: `false` on the `nil` error and on every error that is not a
file-does-not-exist error; it does not look through `pkg/errors` wrappers. -/
def IsNotExist : Option GoError → Bool
  | some (GoError.notExist _) => true
  | _ => false

/-- A reference to a collaborator object (a logger, a command executor): only its identity
matters here. -/
structure Handle where
  addr : Nat
  deriving DecidableEq, Repr

/-- The value type `version.Version` of `hashicorp/go-version`; the planner only passes it
around. -/
structure Version where
  metadata : String
  pre : String
  segments : List Int
  original : String
  deriving DecidableEq, Repr

/-- The outcome of running Go code that may panic. -/
inductive Result (α : Type) where
  | panic
  | ret (a : α)
  deriving DecidableEq, Repr

deriving instance DecidableEq for Except

/-- Library functions whose definition rests on tables or on the host platform. -/
structure Stdlib where
  /-- `filepath.Join(a, b)` -/
  Join : String → String → String
  /-- `strconv.IsPrint` on runes above `0xFF` (decided there by the Unicode tables). -/
  isPrintTable : Char → Bool
  /-- `version.NewVersion` of `hashicorp/go-version`. -/
  NewVersion : String → Except GoError Version

/-! ## `strconv.Quote`, the rendering of the `%q` verb -/

/-- The digits `strconv` uses for hexadecimal escapes. -/
def lowerhex : List Char := "0123456789abcdef".toList

/-- The hexadecimal digit for the low four bits of `n`. -/
def hexDigit (n : Nat) : Char := lowerhex.getD (n % 16) '0'

/-- The code point of the double quote. -/
def dquote : Char := Char.ofNat 0x22

/-- The code point of the backslash. -/
def backslash : Char := Char.ofNat 0x5C

/-- Go `strconv.IsPrint`. -/
def IsPrint (L : Stdlib) (r : Char) : Bool :=
  if r.toNat ≤ 0xFF then
    if 0x20 ≤ r.toNat ∧ r.toNat ≤ 0x7E then true
    else if 0xA1 ≤ r.toNat ∧ r.toNat ≤ 0xFF then r.toNat != 0xAD
    else false
  else L.isPrintTable r

/-- Go `strconv.appendEscapedRune` with quote `"`, `ASCIIonly = false`, `graphicOnly = false`:
the characters one rune contributes to the quoted string. A Lean `Char` is a valid rune, so
the branches for invalid UTF-8 and for runes above `utf8.MaxRune` do not arise. -/
def appendEscapedRune (L : Stdlib) (r : Char) : List Char :=
  if r = dquote ∨ r = backslash then [backslash, r]
  else if IsPrint L r then [r]
  else if r.toNat = 0x07 then [backslash, 'a']
  else if r.toNat = 0x08 then [backslash, 'b']
  else if r.toNat = 0x0C then [backslash, 'f']
  else if r.toNat = 0x0A then [backslash, 'n']
  else if r.toNat = 0x0D then [backslash, 'r']
  else if r.toNat = 0x09 then [backslash, 't']
  else if r.toNat = 0x0B then [backslash, 'v']
  else if r.toNat < 0x20 ∨ r.toNat = 0x7F then
    [backslash, 'x', hexDigit (r.toNat / 16), hexDigit r.toNat]
  else if r.toNat < 0x10000 then
    [backslash, 'u', hexDigit (r.toNat / 4096), hexDigit (r.toNat / 256),
      hexDigit (r.toNat / 16), hexDigit r.toNat]
  else
    [backslash, 'U', hexDigit (r.toNat / 268435456), hexDigit (r.toNat / 16777216),
      hexDigit (r.toNat / 1048576), hexDigit (r.toNat / 65536),
      hexDigit (r.toNat / 4096), hexDigit (r.toNat / 256),
      hexDigit (r.toNat / 16), hexDigit r.toNat]

/-- The loop of `strconv.appendQuotedWith` over the runes of the string. -/
def quoteRunes (L : Stdlib) : List Char → List Char
  | [] => []
  | r :: rs => appendEscapedRune L r ++ quoteRunes L rs

/-- Go `strconv.Quote(s)`, which is how `fmt` renders a string under `%q`. -/
def Quote (L : Stdlib) (s : String) : String :=
  String.mk (dquote :: (quoteRunes L s.data ++ [dquote]))

/-! ## The parsed configuration (package `yaml`)

The declarations of `yaml.Config`, `yaml.Project`, `yaml.Workflow` and `yaml.StepConfig` are not
among the files at hand; the structures below hold exactly the fields `buildStage` reads. -/

namespace yaml

/-- The `yaml.StepConfig` fields read by `buildStage`. -/
structure StepConfig where
  StepType : String
  ExtraArgs : List String
  Run : List String
  deriving DecidableEq, Repr

/-- The value of `workflow.Plan` and `workflow.Apply`: an ordered list of step configurations. -/
structure Stage where
  Steps : List StepConfig
  deriving DecidableEq, Repr

/-- The `yaml.Workflow` fields read by `buildStage`. -/
structure Workflow where
  Plan : Stage
  Apply : Stage
  deriving DecidableEq, Repr

/-- The `yaml.Project` fields read by `buildStage`. -/
structure Project where
  Dir : String
  Workspace : String
  Workflow : String
  deriving DecidableEq, Repr

/-- The `yaml.Config` fields read by `buildStage`. The Go map `Workflows` is an association
list read with `List.lookup`: a key is present when `lookup` finds it. -/
structure Config where
  Projects : List Project
  Workflows : List (String × Workflow)
  deriving DecidableEq, Repr

/-- The `yaml.ParserValidator`, of which the planner calls `ReadConfig(repoDir)`; the method
returns a configuration and an error. -/
structure ParserValidator where
  ReadConfig : String → Config × Option GoError

end yaml

/-! ## Steps and stages (package `runtime`) -/

namespace runtime

/-- Go `PlanStageName`. -/
def PlanStageName : String := "plan"

/-- Go `ApplyStageName`. -/
def ApplyStageName : String := "apply"

/-- Go `AtlantisYAMLFilename`. -/
def AtlantisYAMLFilename : String := "atlantis.yaml"

/-- Go `StepMeta`, with the fields `buildMeta` sets. -/
structure StepMeta where
  Log : Handle
  Workspace : String
  AbsolutePath : String
  DirRelativeToRepoRoot : String
  TerraformVersion : Option Version
  TerraformExecutor : Handle
  ExtraCommentArgs : List String
  Username : String
  deriving DecidableEq, Repr

/-- Go `InitStep`. -/
structure InitStep where
  ExtraArgs : List String
  Meta : StepMeta
  deriving DecidableEq, Repr

/-- Go `PlanStep`. -/
structure PlanStep where
  ExtraArgs : List String
  Meta : StepMeta
  deriving DecidableEq, Repr

/-- Go `ApplyStep`. -/
structure ApplyStep where
  ExtraArgs : List String
  Meta : StepMeta
  deriving DecidableEq, Repr

/-- Go `RunStep`. -/
structure RunStep where
  Commands : List String
  Meta : StepMeta
  deriving DecidableEq, Repr

/-- A non-nil value of the Go interface `Step`: a pointer to one of the four step structs.
A `Step` variable that may be `nil` is an `Option Step`. -/
inductive Step where
  | init (s : InitStep)
  | plan (s : PlanStep)
  | apply (s : ApplyStep)
  | run (s : RunStep)
  deriving DecidableEq, Repr

/-- The `Meta` field of whichever struct the step points to. -/
def Step.Meta : Step → StepMeta
  | .init s => s.Meta
  | .plan s => s.Meta
  | .apply s => s.Meta
  | .run s => s.Meta

/-- Go `PlanStage`. -/
structure PlanStage where
  Steps : List (Option Step)
  deriving DecidableEq, Repr

/-- Go `ApplyStage`. -/
structure ApplyStage where
  Steps : List (Option Step)
  deriving DecidableEq, Repr

/-- Go `ExecutionPlanner`. -/
structure ExecutionPlanner where
  TerraformExecutor : Handle
  DefaultTFVersion : Option Version
  ParserValidator : yaml.ParserValidator

/-- Go `ExecutionPlanner.buildMeta`. -/
def ExecutionPlanner.buildMeta (L : Stdlib) (s : ExecutionPlanner) (log : Handle)
    (repoDir workspace relProjectPath : String) (extraCommentArgs : List String)
    (username : String) : StepMeta :=
  { Log := log
    Workspace := workspace
    AbsolutePath := L.Join repoDir relProjectPath
    DirRelativeToRepoRoot := relProjectPath
    TerraformVersion := s.DefaultTFVersion
    TerraformExecutor := s.TerraformExecutor
    ExtraCommentArgs := extraCommentArgs
    Username := username }

/-- Go `ExecutionPlanner.defaultPlanSteps`. -/
def ExecutionPlanner.defaultPlanSteps (L : Stdlib) (s : ExecutionPlanner) (log : Handle)
    (repoDir workspace relProjectPath : String) (extraCommentArgs : List String)
    (username : String) : List (Option Step) :=
  let m := s.buildMeta L log repoDir workspace relProjectPath extraCommentArgs username
  [some (Step.init { ExtraArgs := [], Meta := m }),
   some (Step.plan { ExtraArgs := [], Meta := m })]

/-- Go `ExecutionPlanner.defaultApplySteps`. -/
def ExecutionPlanner.defaultApplySteps (L : Stdlib) (s : ExecutionPlanner) (log : Handle)
    (repoDir workspace relProjectPath : String) (extraCommentArgs : List String)
    (username : String) : List (Option Step) :=
  let m := s.buildMeta L log repoDir workspace relProjectPath extraCommentArgs username
  [some (Step.apply { ExtraArgs := [], Meta := m })]

/-- The body of the inner loop of `buildStage` up to the `append`: the `switch` on
`stepConfig.StepType`, which leaves `step` at its zero value `nil` when no case applies. -/
def stepOfConfig (m : StepMeta) (stepConfig : yaml.StepConfig) : Option Step :=
  if stepConfig.StepType = "init" then
    some (Step.init { Meta := m, ExtraArgs := stepConfig.ExtraArgs })
  else if stepConfig.StepType = "plan" then
    some (Step.plan { Meta := m, ExtraArgs := stepConfig.ExtraArgs })
  else if stepConfig.StepType = "apply" then
    some (Step.apply { Meta := m, ExtraArgs := stepConfig.ExtraArgs })
  else if stepConfig.StepType = "run" then
    some (Step.run { Meta := m, Commands := stepConfig.Run })
  else
    none

/-- The inner loop of `buildStage`: starting from the `nil` slice, append one step per step
configuration. -/
def buildSteps (m : StepMeta) (stepsConfig : List yaml.StepConfig) : List (Option Step) :=
  stepsConfig.foldl (fun steps stepConfig => steps ++ [stepOfConfig m stepConfig]) []

/-- The loop `for _, p := range config.Projects` of `buildStage` together with the fallback
after it: the first project whose `Dir` and `Workspace` equal the requested ones decides the
result; when the list is exhausted the defaults are returned. -/
def scanProjects (L : Stdlib) (s : ExecutionPlanner) (stageName : String) (log : Handle)
    (repoDir workspace relProjectPath : String) (extraCommentArgs : List String)
    (username : String) (defaults : List (Option Step))
    (workflows : List (String × yaml.Workflow)) :
    List yaml.Project → Except GoError (List (Option Step))
  | [] => Except.ok defaults
  | p :: ps =>
    if p.Dir = relProjectPath ∧ p.Workspace = workspace then
      let workflowName := p.Workflow
      if workflowName = "" then
        Except.ok defaults
      else
        match workflows.lookup workflowName with
        | none =>
          Except.error
            (GoError.errorString ("no workflow with key " ++ Quote L workflowName ++ " defined"))
        | some workflow =>
          let m := s.buildMeta L log repoDir workspace relProjectPath extraCommentArgs username
          let stepsConfig :=
            if stageName = PlanStageName then workflow.Plan.Steps else workflow.Apply.Steps
          Except.ok (buildSteps m stepsConfig)
    else
      scanProjects L s stageName log repoDir workspace relProjectPath extraCommentArgs username
        defaults workflows ps

/-- Go `ExecutionPlanner.buildStage`. -/
def ExecutionPlanner.buildStage (L : Stdlib) (s : ExecutionPlanner) (stageName : String)
    (log : Handle) (repoDir workspace relProjectPath : String) (extraCommentArgs : List String)
    (username : String) (defaults : List (Option Step)) :
    Except GoError (List (Option Step)) :=
  let (config, err) := s.ParserValidator.ReadConfig repoDir
  if IsNotExist err then
    Except.ok defaults
  else
    match err with
    | some e => Except.error e
    | none =>
      scanProjects L s stageName log repoDir workspace relProjectPath extraCommentArgs username
        defaults config.Workflows config.Projects

/-- Go `ExecutionPlanner.BuildPlanStage`. -/
def ExecutionPlanner.BuildPlanStage (L : Stdlib) (s : ExecutionPlanner) (log : Handle)
    (repoDir workspace relProjectPath : String) (extraCommentArgs : List String)
    (username : String) : Except GoError PlanStage :=
  let defaults := s.defaultPlanSteps L log repoDir workspace relProjectPath extraCommentArgs username
  match s.buildStage L PlanStageName log repoDir workspace relProjectPath extraCommentArgs
      username defaults with
  | Except.error err => Except.error err
  | Except.ok steps => Except.ok { Steps := steps }

/-- Go `ExecutionPlanner.BuildApplyStage`. -/
def ExecutionPlanner.BuildApplyStage (L : Stdlib) (s : ExecutionPlanner) (log : Handle)
    (repoDir workspace relProjectPath : String) (extraCommentArgs : List String)
    (username : String) : Except GoError ApplyStage :=
  let defaults :=
    s.defaultApplySteps L log repoDir workspace relProjectPath extraCommentArgs username
  match s.buildStage L ApplyStageName log repoDir workspace relProjectPath extraCommentArgs
      username defaults with
  | Except.error err => Except.error err
  | Except.ok steps => Except.ok { Steps := steps }

end runtime

/-! ## `strings.Contains` -/

/-- Whether `substr` occurs in `s` at some offset: Go `strings.Index(s, substr) >= 0`. On
well-formed UTF-8 an occurrence among the bytes is an occurrence among the runes. -/
def containsChars : List Char → List Char → Bool
  | [], substr => substr.isEmpty
  | c :: cs, substr => substr.isPrefixOf (c :: cs) || containsChars cs substr

/-- Go `strings.Contains`. -/
def Contains (s substr : String) : Bool := containsChars s.data substr.data

/-! ## The combinators of `go-ozzo/ozzo-validation` used by `Validate` -/

namespace validation

/-- Go `validation.Errors`: the failed fields with the error of each, in the order of the field
rules (the Go map has one entry per failed field). -/
abbrev Errors := List (String × GoError)

/-- A `validation.Rule` for values of type `α`: its `Validate` method, which may panic. -/
abbrev Rule (α : Type) := α → Result (Option GoError)

/-- The rule `validation.Required` on a `*string`: the value is rejected when the pointer is
`nil` or points to the empty string. -/
def Required : Rule (Option String)
  | none => Result.ret (some (GoError.errorString "cannot be blank"))
  | some v =>
    if v = "" then Result.ret (some (GoError.errorString "cannot be blank")) else Result.ret none

/-- Go `validation.By(f)`: the rule that calls `f`. -/
def By {α : Type} (f : α → Result (Option GoError)) : Rule α := f

/-- Go `validation.Validate(value, rules...)`: the rules run in order and the first error
is returned. (For a `*string` and a `[]string` the checks after the rule loop return `nil`.) -/
def Validate {α : Type} (value : α) : List (Rule α) → Result (Option GoError)
  | [] => Result.ret none
  | rule :: rules =>
    match rule value with
    | Result.panic => Result.panic
    | Result.ret (some err) => Result.ret (some err)
    | Result.ret none => Validate value rules

/-- Go `validation.Field(&field, rules...)` once `ValidateStruct` has evaluated it: the name
under which an error of the field is reported, and the outcome of `Validate` on its value. -/
abbrev FieldOutcome := String × Result (Option GoError)

/-- The loop of `ValidateStruct` over the field rules: the errors collected so far, or a
panic. -/
def collect : List FieldOutcome → Result Errors
  | [] => Result.ret []
  | (_, Result.panic) :: _ => Result.panic
  | (_, Result.ret none) :: rest => collect rest
  | (name, Result.ret (some err)) :: rest =>
    match collect rest with
    | Result.panic => Result.panic
    | Result.ret errs => Result.ret ((name, err) :: errs)

/-- Go `validation.ValidateStruct`: `nil` when no field failed, the collected `Errors`
otherwise. -/
def ValidateStruct (fields : List FieldOutcome) : Result (Option Errors) :=
  match collect fields with
  | Result.panic => Result.panic
  | Result.ret errs => if errs.isEmpty then Result.ret none else Result.ret (some errs)

end validation

/-! ## Raw project entries (package `raw`) -/

namespace raw

/-- Go `DefaultWorkspace`. -/
def DefaultWorkspace : String := "default"

/-- Go `ApprovedApplyRequirement`. -/
def ApprovedApplyRequirement : String := "approved"

/-- The raw `Autoplan` block of a project entry. Its declaration is not among the files at
hand and `Validate` does not read it. -/
structure Autoplan where
  WhenModified : List String
  Enabled : Option Bool
  deriving DecidableEq, Repr

/-- Go `raw.Project`. -/
structure Project where
  Name : Option String
  Dir : Option String
  Workspace : Option String
  Workflow : Option String
  TerraformVersion : Option String
  Autoplan : Option Autoplan
  ApplyRequirements : List String
  deriving DecidableEq, Repr

/-- The closure `hasDotDot` of `Validate`: it dereferences its argument, which panics on a
`nil` pointer. -/
def hasDotDot : Option String → Result (Option GoError)
  | none => Result.panic
  | some v =>
    if Contains v ".." then Result.ret (some (GoError.errorString "cannot contain '..'"))
    else Result.ret none

/-- The closure `validApplyReq` of `Validate`. -/
def validApplyReq (L : Stdlib) : List String → Result (Option GoError)
  | [] => Result.ret none
  | r :: reqs =>
    if r ≠ ApprovedApplyRequirement then
      Result.ret (some (GoError.errorString
        (Quote L r ++ " not supported, only " ++ ApprovedApplyRequirement ++ " is supported")))
    else validApplyReq L reqs

/-- Go `errors.Wrapf(err, format, args...)` of `pkg/errors` with the message already formatted:
`nil` for the `nil` error. -/
def Wrapf (err : Option GoError) (msg : String) : Option GoError :=
  match err with
  | none => none
  | some cause => some (GoError.withMessage cause msg)

/-- The closure `validTFVersion` of `Validate`. -/
def validTFVersion (L : Stdlib) : Option String → Result (Option GoError)
  | none => Result.ret none
  | some str =>
    let err : Option GoError :=
      match L.NewVersion str with
      | Except.error e => some e
      | Except.ok _ => none
    Result.ret (Wrapf err ("version " ++ Quote L str ++ " could not be parsed"))

/-- Go `Project.Validate`. None of the three fields carries a `json` tag, so an error is
reported under the Go name of the field. -/
def Project.Validate (L : Stdlib) (p : Project) : Result (Option validation.Errors) :=
  validation.ValidateStruct
    [("Dir", validation.Validate p.Dir [validation.Required, validation.By hasDotDot]),
     ("ApplyRequirements",
        validation.Validate p.ApplyRequirements [validation.By (validApplyReq L)]),
     ("TerraformVersion",
        validation.Validate p.TerraformVersion [validation.By (validTFVersion L)])]

/-! ### Path segments, to state what a traversal segment is -/

/-- The segments of a path: the maximal runs of characters between `/` separators. -/
def splitSlash : List Char → List (List Char)
  | [] => [[]]
  | c :: cs =>
    if c = '/' then [] :: splitSlash cs
    else
      match splitSlash cs with
      | [] => [[c]]
      | seg :: segs => (c :: seg) :: segs

/-- Whether some segment of the path is the parent directory `..`. -/
def hasParentSegment (dir : String) : Bool :=
  (splitSlash dir.data).contains ['.', '.']

end raw

/-! ## Normalised project entries (package `valid`) and `ToValid`

The declarations of `valid.Project` and `valid.Autoplan` are not among the files at hand;
`valid.Project` holds the fields `ToValid` assigns, with the types of the values assigned. -/

namespace valid

/-- The normalised autoplan policy. `ToValid` of a project only stores it. -/
structure Autoplan where
  WhenModified : List String
  Enabled : Bool
  deriving DecidableEq, Repr

/-- The `valid.Project` fields assigned by `raw.Project.ToValid`. -/
structure Project where
  Dir : String
  Workspace : String
  Workflow : Option String
  TerraformVersion : Option Version
  Autoplan : Autoplan
  ApplyRequirements : List String
  Name : Option String
  deriving DecidableEq, Repr

end valid

namespace raw

/-- The two autoplan helpers `ToValid` calls, whose definitions are not among the files at
hand: `DefaultAutoPlan()` and the method `Autoplan.ToValid()`. -/
structure AutoplanOps where
  DefaultAutoPlan : valid.Autoplan
  ToValid : Autoplan → valid.Autoplan

/-- The assignment `v.TerraformVersion, _ = version.NewVersion(s)`: the pointer the parser
returns, which is `nil` when it fails; the error is dropped. -/
def parsedVersion (L : Stdlib) (s : String) : Option Version :=
  match L.NewVersion s with
  | Except.ok v => some v
  | Except.error _ => none

/-- Go `Project.ToValid`. The first statement dereferences `p.Dir`, which panics on a `nil`
pointer. -/
def Project.ToValid (L : Stdlib) (A : AutoplanOps) (p : Project) : Result valid.Project :=
  match p.Dir with
  | none => Result.panic
  | some dir =>
    Result.ret
      { Dir := dir
        Workspace :=
          match p.Workspace with
          | none => DefaultWorkspace
          | some w => w
        Workflow := p.Workflow
        TerraformVersion :=
          match p.TerraformVersion with
          | none => none
          | some str => parsedVersion L str
        Autoplan :=
          match p.Autoplan with
          | none => A.DefaultAutoPlan
          | some a => A.ToValid a
        ApplyRequirements := p.ApplyRequirements
        Name := p.Name }

end raw

/-! ## The quoted form written in the error-message templates -/

/-- The string between two double quotes with nothing escaped: the reading of `"<name>"` in a
message template when the name is copied verbatim. -/
def verbatimQuoted (s : String) : String :=
  String.mk (dquote :: (s.data ++ [dquote]))

/-- The characters `strconv.Quote` copies unchanged: printable and neither the double quote
nor the backslash. -/
def plainRune (L : Stdlib) (r : Char) : Bool :=
  IsPrint L r && !(r == dquote) && !(r == backslash)

/-! ## Concrete inputs used to instantiate the theorems -/

namespace Examples

open runtime

/-- A library instance: paths joined with a slash, every rune above `0xFF` printable, and a
version parser that accepts `0.12.0` only. -/
def lib : Stdlib :=
  { Join := fun a b => a ++ "/" ++ b
    isPrintTable := fun _ => true
    NewVersion := fun v =>
      if v = "0.12.0" then
        Except.ok { metadata := "", pre := "", segments := [0, 12, 0], original := "0.12.0" }
      else Except.error (GoError.errorString ("Malformed version: " ++ v)) }

/-- A workflow with plan steps `init`, `plan -foo` and apply steps `run`, `apply`. -/
def customWorkflow : yaml.Workflow :=
  { Plan := { Steps := [{ StepType := "init", ExtraArgs := [], Run := [] },
                        { StepType := "plan", ExtraArgs := ["-foo"], Run := [] }] }
    Apply := { Steps := [{ StepType := "run", ExtraArgs := [], Run := ["echo", "hi"] },
                         { StepType := "apply", ExtraArgs := ["-bar"], Run := [] }] } }

/-- A configuration with two entries for the same directory and workspace. -/
def config : yaml.Config :=
  { Projects := [{ Dir := "other", Workspace := "default", Workflow := "missing" },
                 { Dir := "proj", Workspace := "default", Workflow := "custom" },
                 { Dir := "proj", Workspace := "default", Workflow := "" }]
    Workflows := [("custom", customWorkflow)] }

/-- A configuration whose only entry names the undefined workflow `a"b`. -/
def quoteConfig : yaml.Config :=
  { Projects := [{ Dir := "proj", Workspace := "default", Workflow := "a\"b" }]
    Workflows := [] }

/-- A configuration whose entry for `proj` leaves the workflow name empty while the workflows
map has an entry under the empty key. -/
def emptyNameConfig : yaml.Config :=
  { Projects := [{ Dir := "proj", Workspace := "default", Workflow := "" },
                 { Dir := "proj", Workspace := "default", Workflow := "custom" }]
    Workflows := [("", customWorkflow), ("custom", customWorkflow)] }

/-- Autoplan helpers for the examples: planning enabled on Terraform files by default. -/
def autoplanOps : raw.AutoplanOps :=
  { DefaultAutoPlan := { WhenModified := ["**/*.tf"], Enabled := true }
    ToValid := fun a =>
      { WhenModified := a.WhenModified
        Enabled := match a.Enabled with
          | none => true
          | some b => b } }

/-- A workflow whose plan stage has a step of unknown type between two known ones, and whose
apply stage has no step. -/
def oddWorkflow : yaml.Workflow :=
  { Plan := { Steps := [{ StepType := "init", ExtraArgs := [], Run := [] },
                        { StepType := "validate", ExtraArgs := ["-x"], Run := ["ls"] },
                        { StepType := "plan", ExtraArgs := ["-foo"], Run := [] }] }
    Apply := { Steps := [] } }

/-- A configuration whose entry for `proj` names the workflow `odd`. -/
def oddConfig : yaml.Config :=
  { Projects := [{ Dir := "proj", Workspace := "default", Workflow := "odd" }]
    Workflows := [("odd", oddWorkflow)] }

/-- A planner whose configuration reader answers with the given configuration and error. -/
def planner (config : yaml.Config) (err : Option GoError) : ExecutionPlanner :=
  { TerraformExecutor := { addr := 1 }
    DefaultTFVersion := some { metadata := "", pre := "", segments := [0, 11, 7],
                               original := "0.11.7" }
    ParserValidator := { ReadConfig := fun _ => (config, err) } }

/-- The logger handle of the examples. -/
def log : Handle := { addr := 2 }

end Examples

/-! ## Lemmas on quoting -/

theorem appendEscapedRune_plain (L : Stdlib) (r : Char) (h : plainRune L r = true) :
    appendEscapedRune L r = [r] := by
  simp only [plainRune, Bool.and_eq_true, Bool.not_eq_true', beq_eq_false_iff_ne, ne_eq] at h
  obtain ⟨⟨hprint, hq⟩, hb⟩ := h
  have hno : ¬ (r = dquote ∨ r = backslash) := by
    rintro (h | h)
    · exact hq h
    · exact hb h
  rw [appendEscapedRune, if_neg hno, if_pos hprint]

theorem quoteRunes_plain (L : Stdlib) (cs : List Char) (h : ∀ c ∈ cs, plainRune L c = true) :
    quoteRunes L cs = cs := by
  induction cs with
  | nil => rfl
  | cons c cs ih =>
    rw [quoteRunes, appendEscapedRune_plain L c (h c (List.mem_cons_self _ _)),
      ih (fun d hd => h d (List.mem_cons_of_mem _ hd))]
    rfl

/-- On a string of plain runes `strconv.Quote` only adds the surrounding quotes. -/
theorem Quote_plain (L : Stdlib) (s : String) (h : ∀ c ∈ s.data, plainRune L c = true) :
    Quote L s = verbatimQuoted s := by
  rw [Quote, verbatimQuoted, quoteRunes_plain L s.data h]

/-! ## Lemmas on the planner -/

namespace runtime

theorem buildSteps_foldl (m : StepMeta) (cfg : List yaml.StepConfig) (acc : List (Option Step)) :
    cfg.foldl (fun steps stepConfig => steps ++ [stepOfConfig m stepConfig]) acc
      = acc ++ cfg.map (stepOfConfig m) := by
  induction cfg generalizing acc with
  | nil => simp
  | cons c cs ih => simp [List.foldl_cons, ih]

theorem buildSteps_eq_map (m : StepMeta) (cfg : List yaml.StepConfig) :
    buildSteps m cfg = cfg.map (stepOfConfig m) := by
  simp [buildSteps, buildSteps_foldl]

/-- Entries that do not match are skipped by the scan. -/
theorem scanProjects_skip (L : Stdlib) (s : ExecutionPlanner) (stageName : String) (log : Handle)
    (repoDir workspace relProjectPath : String) (extraCommentArgs : List String)
    (username : String) (defaults : List (Option Step))
    (workflows : List (String × yaml.Workflow)) (pre rest : List yaml.Project)
    (hpre : ∀ q ∈ pre, ¬ (q.Dir = relProjectPath ∧ q.Workspace = workspace)) :
    scanProjects L s stageName log repoDir workspace relProjectPath extraCommentArgs username
        defaults workflows (pre ++ rest)
      = scanProjects L s stageName log repoDir workspace relProjectPath extraCommentArgs username
        defaults workflows rest := by
  induction pre with
  | nil => rfl
  | cons q qs ih =>
    have hq : ¬ (q.Dir = relProjectPath ∧ q.Workspace = workspace) :=
      hpre q (List.mem_cons_self _ _)
    have hqs : ∀ r ∈ qs, ¬ (r.Dir = relProjectPath ∧ r.Workspace = workspace) :=
      fun r hr => hpre r (List.mem_cons_of_mem _ hr)
    rw [List.cons_append, scanProjects, if_neg hq]
    exact ih hqs

/-- A matching entry decides the scan whatever follows it. -/
theorem scanProjects_match (L : Stdlib) (s : ExecutionPlanner) (stageName : String) (log : Handle)
    (repoDir workspace relProjectPath : String) (extraCommentArgs : List String)
    (username : String) (defaults : List (Option Step))
    (workflows : List (String × yaml.Workflow)) (p : yaml.Project) (rest : List yaml.Project)
    (hp : p.Dir = relProjectPath ∧ p.Workspace = workspace) :
    scanProjects L s stageName log repoDir workspace relProjectPath extraCommentArgs username
        defaults workflows (p :: rest)
      = if p.Workflow = "" then Except.ok defaults
        else
          match workflows.lookup p.Workflow with
          | none =>
            Except.error
              (GoError.errorString ("no workflow with key " ++ Quote L p.Workflow ++ " defined"))
          | some workflow =>
            Except.ok (buildSteps
              (s.buildMeta L log repoDir workspace relProjectPath extraCommentArgs username)
              (if stageName = PlanStageName then workflow.Plan.Steps else workflow.Apply.Steps)) := by
  rw [scanProjects, if_pos hp]

/-- The scan is decided by the first matching entry, found with `List.find?`. -/
theorem scanProjects_find_some (L : Stdlib) (s : ExecutionPlanner) (stageName : String)
    (log : Handle) (repoDir workspace relProjectPath : String) (extraCommentArgs : List String)
    (username : String) (defaults : List (Option Step))
    (workflows : List (String × yaml.Workflow)) (projects : List yaml.Project)
    (p : yaml.Project)
    (hfirst : projects.find? (fun q => decide (q.Dir = relProjectPath ∧ q.Workspace = workspace))
      = some p) :
    scanProjects L s stageName log repoDir workspace relProjectPath extraCommentArgs username
        defaults workflows projects
      = scanProjects L s stageName log repoDir workspace relProjectPath extraCommentArgs username
        defaults workflows [p] := by
  obtain ⟨hp, pre, rest, hsplit, hpre⟩ := List.find?_eq_some.mp hfirst
  have hp' : p.Dir = relProjectPath ∧ p.Workspace = workspace := by simpa using hp
  have hpre' : ∀ q ∈ pre, ¬ (q.Dir = relProjectPath ∧ q.Workspace = workspace) := by
    intro q hq hmatch
    have hb := hpre q hq
    simp [hmatch.1, hmatch.2] at hb
  rw [hsplit, scanProjects_skip _ _ _ _ _ _ _ _ _ _ _ _ _ hpre',
    scanProjects_match _ _ _ _ _ _ _ _ _ _ _ _ _ hp', scanProjects_match _ _ _ _ _ _ _ _ _ _ _ _ _ hp']

/-- Without a matching entry the scan returns the defaults. -/
theorem scanProjects_find_none (L : Stdlib) (s : ExecutionPlanner) (stageName : String)
    (log : Handle) (repoDir workspace relProjectPath : String) (extraCommentArgs : List String)
    (username : String) (defaults : List (Option Step))
    (workflows : List (String × yaml.Workflow)) (projects : List yaml.Project)
    (hnone : projects.find? (fun q => decide (q.Dir = relProjectPath ∧ q.Workspace = workspace))
      = none) :
    scanProjects L s stageName log repoDir workspace relProjectPath extraCommentArgs username
        defaults workflows projects = Except.ok defaults := by
  have hall : ∀ q ∈ projects, ¬ (q.Dir = relProjectPath ∧ q.Workspace = workspace) := by
    intro q hq hmatch
    have hb := (List.find?_eq_none.mp hnone) q hq
    simp [hmatch.1, hmatch.2] at hb
  have h := scanProjects_skip L s stageName log repoDir workspace relProjectPath extraCommentArgs
    username defaults workflows projects [] hall
  rw [List.append_nil] at h
  rw [h, scanProjects]

/-- When the configuration is read without error, `buildStage` is the scan of its projects. -/
theorem buildStage_read_ok (L : Stdlib) (s : ExecutionPlanner) (stageName : String)
    (log : Handle) (repoDir workspace relProjectPath : String) (extraCommentArgs : List String)
    (username : String) (defaults : List (Option Step)) (config : yaml.Config)
    (hread : s.ParserValidator.ReadConfig repoDir = (config, none)) :
    s.buildStage L stageName log repoDir workspace relProjectPath extraCommentArgs username
        defaults
      = scanProjects L s stageName log repoDir workspace relProjectPath extraCommentArgs username
        defaults config.Workflows config.Projects := by
  simp [ExecutionPlanner.buildStage, hread, IsNotExist]

/-- When the first matching entry names a defined workflow, `buildStage` maps the step
configurations of the requested stage, in order. -/
theorem buildStage_workflow (L : Stdlib) (s : ExecutionPlanner) (stageName : String)
    (log : Handle) (repoDir workspace relProjectPath : String) (extraCommentArgs : List String)
    (username : String) (defaults : List (Option Step)) (config : yaml.Config)
    (p : yaml.Project) (workflow : yaml.Workflow)
    (hread : s.ParserValidator.ReadConfig repoDir = (config, none))
    (hfirst : config.Projects.find?
      (fun q => decide (q.Dir = relProjectPath ∧ q.Workspace = workspace)) = some p)
    (hname : p.Workflow ≠ "")
    (hwf : config.Workflows.lookup p.Workflow = some workflow) :
    s.buildStage L stageName log repoDir workspace relProjectPath extraCommentArgs username
        defaults
      = Except.ok
        ((if stageName = PlanStageName then workflow.Plan.Steps else workflow.Apply.Steps).map
          (stepOfConfig
            (s.buildMeta L log repoDir workspace relProjectPath extraCommentArgs username))) := by
  have hp : p.Dir = relProjectPath ∧ p.Workspace = workspace := by
    simpa using (List.find?_eq_some.mp hfirst).1
  rw [buildStage_read_ok L s stageName log repoDir workspace relProjectPath extraCommentArgs
      username defaults config hread,
    scanProjects_find_some L s stageName log repoDir workspace relProjectPath extraCommentArgs
      username defaults config.Workflows config.Projects p hfirst,
    scanProjects_match _ _ _ _ _ _ _ _ _ _ _ _ _ hp, if_neg hname, hwf]
  simp only [buildSteps_eq_map]

/-- On a recognised tag the `switch` builds the variant of that tag, with the extra arguments
(for `run`: the commands) of the step configuration. -/
theorem stepOfConfig_recognised (m : StepMeta) (sc : yaml.StepConfig)
    (htag : sc.StepType ∈ ["init", "plan", "apply", "run"]) :
    (sc.StepType = "init" ∧
        stepOfConfig m sc = some (Step.init { ExtraArgs := sc.ExtraArgs, Meta := m })) ∨
    (sc.StepType = "plan" ∧
        stepOfConfig m sc = some (Step.plan { ExtraArgs := sc.ExtraArgs, Meta := m })) ∨
    (sc.StepType = "apply" ∧
        stepOfConfig m sc = some (Step.apply { ExtraArgs := sc.ExtraArgs, Meta := m })) ∨
    (sc.StepType = "run" ∧
        stepOfConfig m sc = some (Step.run { Commands := sc.Run, Meta := m })) := by
  simp only [List.mem_cons, List.mem_singleton, List.not_mem_nil, or_false] at htag
  rcases htag with h | h | h | h
  · left; exact ⟨h, by simp [stepOfConfig, h]⟩
  · right; left; exact ⟨h, by simp [stepOfConfig, h]⟩
  · right; right; left; exact ⟨h, by simp [stepOfConfig, h]⟩
  · right; right; right; exact ⟨h, by simp [stepOfConfig, h]⟩

/-- Position by position, the mapped list holds the variant of the tag at that position. -/
theorem map_stepOfConfig_positions (m : StepMeta) (cfg : List yaml.StepConfig)
    (htags : ∀ sc ∈ cfg, sc.StepType ∈ ["init", "plan", "apply", "run"])
    (i : Nat) (sc : yaml.StepConfig) (hi : cfg[i]? = some sc) :
    (sc.StepType = "init" ∧ (cfg.map (stepOfConfig m))[i]?
        = some (some (Step.init { ExtraArgs := sc.ExtraArgs, Meta := m }))) ∨
    (sc.StepType = "plan" ∧ (cfg.map (stepOfConfig m))[i]?
        = some (some (Step.plan { ExtraArgs := sc.ExtraArgs, Meta := m }))) ∨
    (sc.StepType = "apply" ∧ (cfg.map (stepOfConfig m))[i]?
        = some (some (Step.apply { ExtraArgs := sc.ExtraArgs, Meta := m }))) ∨
    (sc.StepType = "run" ∧ (cfg.map (stepOfConfig m))[i]?
        = some (some (Step.run { Commands := sc.Run, Meta := m }))) := by
  have hmem : sc ∈ cfg := List.getElem?_mem hi
  have hget : (cfg.map (stepOfConfig m))[i]? = some (stepOfConfig m sc) := by
    rw [List.getElem?_map, hi]; rfl
  rw [hget]
  rcases stepOfConfig_recognised m sc (htags sc hmem) with h | h | h | h
  · left; exact ⟨h.1, by rw [h.2]⟩
  · right; left; exact ⟨h.1, by rw [h.2]⟩
  · right; right; left; exact ⟨h.1, by rw [h.2]⟩
  · right; right; right; exact ⟨h.1, by rw [h.2]⟩

/-- Whatever the `switch` builds carries the meta it was given. -/
theorem stepOfConfig_meta (m : StepMeta) (sc : yaml.StepConfig) (step : Step)
    (h : stepOfConfig m sc = some step) : step.Meta = m := by
  unfold stepOfConfig at h
  split_ifs at h <;> simp at h <;> subst h <;> rfl

/-- Every present step of a successful scan carries the meta built from the inputs, provided
the default steps do. -/
theorem scanProjects_meta (L : Stdlib) (s : ExecutionPlanner) (stageName : String) (log : Handle)
    (repoDir workspace relProjectPath : String) (extraCommentArgs : List String)
    (username : String) (defaults : List (Option Step))
    (workflows : List (String × yaml.Workflow))
    (hdef : ∀ step : Step, some step ∈ defaults →
      step.Meta = s.buildMeta L log repoDir workspace relProjectPath extraCommentArgs username)
    (projects : List yaml.Project) (steps : List (Option Step))
    (hok : scanProjects L s stageName log repoDir workspace relProjectPath extraCommentArgs
      username defaults workflows projects = Except.ok steps)
    (step : Step) (hmem : some step ∈ steps) :
    step.Meta = s.buildMeta L log repoDir workspace relProjectPath extraCommentArgs username := by
  induction projects with
  | nil =>
    rw [scanProjects] at hok
    cases hok
    exact hdef step hmem
  | cons p ps ih =>
    by_cases hp : p.Dir = relProjectPath ∧ p.Workspace = workspace
    · rw [scanProjects_match _ _ _ _ _ _ _ _ _ _ _ _ _ hp] at hok
      by_cases hname : p.Workflow = ""
      · rw [if_pos hname] at hok
        cases hok
        exact hdef step hmem
      · rw [if_neg hname] at hok
        cases hwf : workflows.lookup p.Workflow with
        | none => rw [hwf] at hok; cases hok
        | some workflow =>
          rw [hwf] at hok
          simp only [buildSteps_eq_map] at hok
          cases hok
          obtain ⟨sc, _, hsc⟩ := List.mem_map.mp hmem
          exact stepOfConfig_meta _ sc step hsc
    · rw [scanProjects, if_neg hp] at hok
      exact ih hok

/-- Every present step of a successful `buildStage` carries the meta built from the inputs,
provided the default steps do. -/
theorem buildStage_meta (L : Stdlib) (s : ExecutionPlanner) (stageName : String) (log : Handle)
    (repoDir workspace relProjectPath : String) (extraCommentArgs : List String)
    (username : String) (defaults : List (Option Step))
    (hdef : ∀ step : Step, some step ∈ defaults →
      step.Meta = s.buildMeta L log repoDir workspace relProjectPath extraCommentArgs username)
    (steps : List (Option Step))
    (hok : s.buildStage L stageName log repoDir workspace relProjectPath extraCommentArgs
      username defaults = Except.ok steps)
    (step : Step) (hmem : some step ∈ steps) :
    step.Meta = s.buildMeta L log repoDir workspace relProjectPath extraCommentArgs username := by
  unfold ExecutionPlanner.buildStage at hok
  cases hnot : IsNotExist (s.ParserValidator.ReadConfig repoDir).2 with
  | true =>
    simp only [hnot, if_true] at hok
    cases hok
    exact hdef step hmem
  | false =>
    simp only [hnot] at hok
    cases herr : (s.ParserValidator.ReadConfig repoDir).2 with
    | some e => simp [herr] at hok
    | none =>
      simp only [herr] at hok
      exact scanProjects_meta L s stageName log repoDir workspace relProjectPath
        extraCommentArgs username defaults _ hdef _ steps (by simpa using hok) step hmem

end runtime

/-! ## Lemmas on `strings.Contains` and on path segments -/

/-- `containsChars` decides whether the second list occurs as a contiguous block of the
first. -/
theorem containsChars_iff_occurs (cs substr : List Char) :
    containsChars cs substr = true ↔ substr <:+: cs := by
  induction cs with
  | nil => simp [containsChars, List.isEmpty_iff]
  | cons c cs ih =>
    rw [containsChars, Bool.or_eq_true, ih, List.isPrefixOf_iff_prefix, List.infix_cons_iff]

namespace raw

/-- The first segment of a path is a prefix of the path. -/
theorem splitSlash_head_prefix (l : List Char) :
    ∃ seg segs, splitSlash l = seg :: segs ∧ seg <+: l := by
  induction l with
  | nil => exact ⟨[], [], rfl, List.nil_prefix⟩
  | cons c cs ih =>
    obtain ⟨seg, segs, hsplit, hpre⟩ := ih
    by_cases hc : c = '/'
    · exact ⟨[], splitSlash cs, by rw [splitSlash, if_pos hc], List.nil_prefix⟩
    · refine ⟨c :: seg, segs, ?_, ?_⟩
      · rw [splitSlash, if_neg hc, hsplit]
      · exact (List.prefix_cons_inj c).mpr hpre

/-- Every segment of a path occurs in the path. -/
theorem splitSlash_occurs (l : List Char) : ∀ seg ∈ splitSlash l, seg <:+: l := by
  induction l with
  | nil =>
    intro seg hseg
    simp only [splitSlash, List.mem_singleton] at hseg
    subst hseg
    exact List.nil_infix
  | cons c cs ih =>
    intro seg hseg
    by_cases hc : c = '/'
    · rw [splitSlash, if_pos hc] at hseg
      rcases List.mem_cons.mp hseg with h | h
      · subst h; exact List.nil_infix
      · exact List.infix_cons (ih seg h)
    · obtain ⟨seg0, segs, hsplit, hpre⟩ := splitSlash_head_prefix cs
      rw [splitSlash, if_neg hc, hsplit] at hseg
      rcases List.mem_cons.mp hseg with h | h
      · subst h
        exact ((List.prefix_cons_inj c).mpr hpre).isInfix
      · exact List.infix_cons (ih seg (by rw [hsplit]; exact List.mem_cons_of_mem _ h))

/-- A path with a `..` segment contains the two-character string `..`. -/
theorem Contains_of_hasParentSegment (dir : String) (h : hasParentSegment dir = true) :
    Contains dir ".." = true := by
  have hmem : ['.', '.'] ∈ splitSlash dir.data := by
    simpa [hasParentSegment] using h
  exact (containsChars_iff_occurs dir.data ['.', '.']).mpr (splitSlash_occurs dir.data _ hmem)

/-- A string that contains `..` is not empty. -/
theorem ne_empty_of_Contains (dir : String) (h : Contains dir ".." = true) : dir ≠ "" := by
  rintro rfl
  revert h
  decide

/-- The closure `validApplyReq` never panics: it reports the first requirement that is not
`approved`, if there is one. -/
theorem validApplyReq_eq (L : Stdlib) (reqs : List String) :
    validApplyReq L reqs
      = Result.ret ((reqs.find? (fun r => decide (r ≠ ApprovedApplyRequirement))).map
          (fun r => GoError.errorString
            (Quote L r ++ " not supported, only " ++ ApprovedApplyRequirement
              ++ " is supported"))) := by
  induction reqs with
  | nil => rfl
  | cons r reqs ih =>
    by_cases hr : r ≠ ApprovedApplyRequirement
    · rw [validApplyReq, if_pos hr, List.find?_cons_of_pos _ (by simpa using hr)]
      rfl
    · rw [validApplyReq, if_neg hr, ih, List.find?_cons_of_neg _ (by simpa using hr)]

/-- With a single rule, `validation.Validate` is that rule. -/
theorem Validate_single {α : Type} (value : α) (rule : validation.Rule α) :
    validation.Validate value [rule] = rule value := by
  rw [validation.Validate]
  cases h : rule value with
  | panic => rfl
  | ret o =>
    cases o with
    | none => simp [validation.Validate]
    | some e => rfl

/-- The closure `validTFVersion` never panics. -/
theorem validTFVersion_ret (L : Stdlib) (tv : Option String) :
    ∃ o, validTFVersion L tv = Result.ret o := by
  cases tv with
  | none => exact ⟨none, rfl⟩
  | some str => exact ⟨_, rfl⟩

/-- The outcome of the rules of the `Dir` field on a path that contains `..`. -/
theorem Validate_Dir_dotdot (dir : String) (h : Contains dir ".." = true) :
    validation.Validate (some dir) [validation.Required, validation.By hasDotDot]
      = Result.ret (some (GoError.errorString "cannot contain '..'")) := by
  have hne : dir ≠ "" := ne_empty_of_Contains dir h
  simp [validation.Validate, validation.Required, validation.By, hasDotDot, hne, h]

/-- The outcome of the rules of the `Dir` field on a non-empty path without `..`. -/
theorem Validate_Dir_valid (dir : String) (hne : dir ≠ "") (h : Contains dir ".." = false) :
    validation.Validate (some dir) [validation.Required, validation.By hasDotDot]
      = Result.ret none := by
  simp [validation.Validate, validation.Required, validation.By, hasDotDot, hne, h]

/-- The outcome of the rules of the `Dir` field on the `nil` pointer: `Required` fails and
`hasDotDot` is not run. -/
theorem Validate_Dir_nil :
    validation.Validate (none : Option String) [validation.Required, validation.By hasDotDot]
      = Result.ret (some (GoError.errorString "cannot be blank")) := by
  simp [validation.Validate, validation.Required]

/-- When the `Dir` field fails with `err`, `Validate` returns errors that hold `err` under
`Dir`, whatever the other fields hold. -/
theorem Validate_of_Dir_error (L : Stdlib) (p : Project) (err : GoError)
    (hdir : validation.Validate p.Dir [validation.Required, validation.By hasDotDot]
      = Result.ret (some err)) :
    ∃ errs : validation.Errors,
      p.Validate L = Result.ret (some errs) ∧ errs.lookup "Dir" = some err := by
  obtain ⟨o3, h3⟩ := validTFVersion_ret L p.TerraformVersion
  unfold Project.Validate
  rw [hdir, Validate_single, Validate_single]
  simp only [validation.By, validApplyReq_eq, h3]
  cases (p.ApplyRequirements.find? (fun r => decide (r ≠ ApprovedApplyRequirement))).map
      (fun r => GoError.errorString
        (Quote L r ++ " not supported, only " ++ ApprovedApplyRequirement ++ " is supported"))
    <;> cases o3 <;>
    simp [validation.ValidateStruct, validation.collect, List.lookup]

/-- With a valid `Dir` and no pinned version, `Validate` reports exactly what `validApplyReq`
finds. -/
theorem Validate_of_valid_Dir (L : Stdlib) (p : Project) (dir : String)
    (hdir : p.Dir = some dir) (hne : dir ≠ "") (hdd : Contains dir ".." = false)
    (htf : p.TerraformVersion = none) :
    p.Validate L
      = match p.ApplyRequirements.find? (fun r => decide (r ≠ ApprovedApplyRequirement)) with
        | none => Result.ret none
        | some r => Result.ret (some [("ApplyRequirements",
            GoError.errorString (Quote L r ++ " not supported, only approved is supported"))]) := by
  unfold Project.Validate
  rw [hdir, htf, Validate_Dir_valid dir hne hdd, Validate_single, Validate_single]
  simp only [validation.By, validApplyReq_eq, validTFVersion]
  cases p.ApplyRequirements.find? (fun r => decide (r ≠ ApprovedApplyRequirement)) with
  | none => rfl
  | some r =>
    have hmsg : Quote L r ++ " not supported, only " ++ ApprovedApplyRequirement ++ " is supported"
        = Quote L r ++ " not supported, only approved is supported" := by
      rw [String.append_assoc, String.append_assoc]
      rfl
    simp [validation.ValidateStruct, validation.collect, hmsg]

end raw

/-! ## The claims -/

open runtime

/-- C1. When the configuration is read without error, the first project entry matching
`(relProjectPath, workspace)` names a workflow (its workflow name is not empty) that is found
in the workflows map, and the plan step
list of that workflow uses only the tags `init`, `plan`, `apply`, `run`, then `BuildPlanStage`
returns without error a step list as long as the plan step list whose `i`-th step is the variant
of the `i`-th tag, carrying the `ExtraArgs` of the `i`-th step configuration (for `run`: its
command list) and the meta built from the inputs; `BuildApplyStage` does the same over the apply
step list. -/
theorem C1_configured_workflow_steps (L : Stdlib) (s : ExecutionPlanner) (log : Handle)
    (repoDir workspace relProjectPath : String) (extraCommentArgs : List String)
    (username : String) (config : yaml.Config) (p : yaml.Project) (workflow : yaml.Workflow)
    (hread : s.ParserValidator.ReadConfig repoDir = (config, none))
    (hfirst : config.Projects.find?
      (fun q => decide (q.Dir = relProjectPath ∧ q.Workspace = workspace)) = some p)
    (hname : p.Workflow ≠ "")
    (hwf : config.Workflows.lookup p.Workflow = some workflow) :
    ((∀ sc ∈ workflow.Plan.Steps, sc.StepType ∈ ["init", "plan", "apply", "run"]) →
      ∃ steps : List (Option Step),
        s.BuildPlanStage L log repoDir workspace relProjectPath extraCommentArgs username
          = Except.ok { Steps := steps } ∧
        steps.length = workflow.Plan.Steps.length ∧
        ∀ (i : Nat) (sc : yaml.StepConfig), workflow.Plan.Steps[i]? = some sc →
          (sc.StepType = "init" ∧ steps[i]? = some (some (Step.init
            { ExtraArgs := sc.ExtraArgs
              Meta := s.buildMeta L log repoDir workspace relProjectPath extraCommentArgs
                username }))) ∨
          (sc.StepType = "plan" ∧ steps[i]? = some (some (Step.plan
            { ExtraArgs := sc.ExtraArgs
              Meta := s.buildMeta L log repoDir workspace relProjectPath extraCommentArgs
                username }))) ∨
          (sc.StepType = "apply" ∧ steps[i]? = some (some (Step.apply
            { ExtraArgs := sc.ExtraArgs
              Meta := s.buildMeta L log repoDir workspace relProjectPath extraCommentArgs
                username }))) ∨
          (sc.StepType = "run" ∧ steps[i]? = some (some (Step.run
            { Commands := sc.Run
              Meta := s.buildMeta L log repoDir workspace relProjectPath extraCommentArgs
                username })))) ∧
    ((∀ sc ∈ workflow.Apply.Steps, sc.StepType ∈ ["init", "plan", "apply", "run"]) →
      ∃ steps : List (Option Step),
        s.BuildApplyStage L log repoDir workspace relProjectPath extraCommentArgs username
          = Except.ok { Steps := steps } ∧
        steps.length = workflow.Apply.Steps.length ∧
        ∀ (i : Nat) (sc : yaml.StepConfig), workflow.Apply.Steps[i]? = some sc →
          (sc.StepType = "init" ∧ steps[i]? = some (some (Step.init
            { ExtraArgs := sc.ExtraArgs
              Meta := s.buildMeta L log repoDir workspace relProjectPath extraCommentArgs
                username }))) ∨
          (sc.StepType = "plan" ∧ steps[i]? = some (some (Step.plan
            { ExtraArgs := sc.ExtraArgs
              Meta := s.buildMeta L log repoDir workspace relProjectPath extraCommentArgs
                username }))) ∨
          (sc.StepType = "apply" ∧ steps[i]? = some (some (Step.apply
            { ExtraArgs := sc.ExtraArgs
              Meta := s.buildMeta L log repoDir workspace relProjectPath extraCommentArgs
                username }))) ∨
          (sc.StepType = "run" ∧ steps[i]? = some (some (Step.run
            { Commands := sc.Run
              Meta := s.buildMeta L log repoDir workspace relProjectPath extraCommentArgs
                username })))) := by
  constructor
  · intro htags
    refine ⟨workflow.Plan.Steps.map (stepOfConfig
      (s.buildMeta L log repoDir workspace relProjectPath extraCommentArgs username)), ?_, ?_, ?_⟩
    · simp only [ExecutionPlanner.BuildPlanStage]
      rw [buildStage_workflow L s PlanStageName log repoDir workspace relProjectPath
        extraCommentArgs username _ config p workflow hread hfirst hname hwf]
      simp
    · simp
    · intro i sc hi
      exact map_stepOfConfig_positions _ _ htags i sc hi
  · intro htags
    refine ⟨workflow.Apply.Steps.map (stepOfConfig
      (s.buildMeta L log repoDir workspace relProjectPath extraCommentArgs username)), ?_, ?_, ?_⟩
    · simp only [ExecutionPlanner.BuildApplyStage]
      rw [buildStage_workflow L s ApplyStageName log repoDir workspace relProjectPath
        extraCommentArgs username _ config p workflow hread hfirst hname hwf]
      have hne : ¬ (ApplyStageName = PlanStageName) := by decide
      simp [hne]
    · simp
    · intro i sc hi
      exact map_stepOfConfig_positions _ _ htags i sc hi

/-- C1 at the example configuration: the entry for `proj` in workspace `default` names the
workflow `custom`, whose plan stage has two steps and whose apply stage has two steps. -/
theorem C1_configured_workflow_steps_witness :
    (∃ steps : List (Option Step),
      (Examples.planner Examples.config none).BuildPlanStage Examples.lib Examples.log
          "/repo" "default" "proj" ["-verbose"] "alice" = Except.ok { Steps := steps } ∧
      steps.length = 2) ∧
    (∃ steps : List (Option Step),
      (Examples.planner Examples.config none).BuildApplyStage Examples.lib Examples.log
          "/repo" "default" "proj" ["-verbose"] "alice" = Except.ok { Steps := steps } ∧
      steps.length = 2) := by
  have h := C1_configured_workflow_steps Examples.lib (Examples.planner Examples.config none)
    Examples.log "/repo" "default" "proj" ["-verbose"] "alice" Examples.config
    { Dir := "proj", Workspace := "default", Workflow := "custom" } Examples.customWorkflow
    rfl (by decide) (by decide) (by decide)
  obtain ⟨steps, h1, h2, _⟩ := h.1 (by decide)
  obtain ⟨steps', h1', h2', _⟩ := h.2 (by decide)
  exact ⟨⟨steps, h1, h2⟩, ⟨steps', h1', h2'⟩⟩

/-- C2. When reading the configuration reports that the file does not exist, `BuildPlanStage`
returns without error exactly an `InitStep` followed by a `PlanStep`, both with an empty
extra-argument list and the meta built from the inputs, whose tool version is the planner's
`DefaultTFVersion`; `BuildApplyStage` returns without error exactly one `ApplyStep` with an empty
extra-argument list. -/
theorem C2_no_config_file_defaults (L : Stdlib) (s : ExecutionPlanner) (log : Handle)
    (repoDir workspace relProjectPath : String) (extraCommentArgs : List String)
    (username : String)
    (habsent : IsNotExist (s.ParserValidator.ReadConfig repoDir).2 = true) :
    s.BuildPlanStage L log repoDir workspace relProjectPath extraCommentArgs username
      = Except.ok { Steps :=
          [some (Step.init
            { ExtraArgs := []
              Meta := s.buildMeta L log repoDir workspace relProjectPath extraCommentArgs
                username }),
           some (Step.plan
            { ExtraArgs := []
              Meta := s.buildMeta L log repoDir workspace relProjectPath extraCommentArgs
                username })] } ∧
    (s.buildMeta L log repoDir workspace relProjectPath extraCommentArgs username).TerraformVersion
      = s.DefaultTFVersion ∧
    s.BuildApplyStage L log repoDir workspace relProjectPath extraCommentArgs username
      = Except.ok { Steps :=
          [some (Step.apply
            { ExtraArgs := []
              Meta := s.buildMeta L log repoDir workspace relProjectPath extraCommentArgs
                username })] } := by
  refine ⟨?_, rfl, ?_⟩
  · simp [ExecutionPlanner.BuildPlanStage, ExecutionPlanner.buildStage, habsent,
      ExecutionPlanner.defaultPlanSteps]
  · simp [ExecutionPlanner.BuildApplyStage, ExecutionPlanner.buildStage, habsent,
      ExecutionPlanner.defaultApplySteps]

/-- C2 at a planner whose reader reports a missing file (and a configuration value that must
not be looked at). -/
theorem C2_no_config_file_defaults_witness :
    ((Examples.planner Examples.config
        (some (GoError.notExist "open /repo/atlantis.yaml: no such file or directory"))).BuildPlanStage
        Examples.lib Examples.log "/repo" "default" "proj" [] "alice"
      = Except.ok { Steps :=
          [some (Step.init { ExtraArgs := [], Meta :=
              { Log := Examples.log, Workspace := "default", AbsolutePath := "/repo/proj",
                DirRelativeToRepoRoot := "proj",
                TerraformVersion := some { metadata := "", pre := "", segments := [0, 11, 7],
                                           original := "0.11.7" },
                TerraformExecutor := { addr := 1 }, ExtraCommentArgs := [],
                Username := "alice" } }),
           some (Step.plan { ExtraArgs := [], Meta :=
              { Log := Examples.log, Workspace := "default", AbsolutePath := "/repo/proj",
                DirRelativeToRepoRoot := "proj",
                TerraformVersion := some { metadata := "", pre := "", segments := [0, 11, 7],
                                           original := "0.11.7" },
                TerraformExecutor := { addr := 1 }, ExtraCommentArgs := [],
                Username := "alice" } })] }) :=
  (C2_no_config_file_defaults Examples.lib
    (Examples.planner Examples.config
      (some (GoError.notExist "open /repo/atlantis.yaml: no such file or directory")))
    Examples.log "/repo" "default" "proj" [] "alice" rfl).1

/-- C7. When reading the configuration returns an error that is not a file-does-not-exist
error, `BuildPlanStage` and `BuildApplyStage` return exactly that error and no stage. -/
theorem C7_read_error_propagated (L : Stdlib) (s : ExecutionPlanner) (log : Handle)
    (repoDir workspace relProjectPath : String) (extraCommentArgs : List String)
    (username : String) (e : GoError)
    (herr : (s.ParserValidator.ReadConfig repoDir).2 = some e)
    (hother : IsNotExist (some e) = false) :
    s.BuildPlanStage L log repoDir workspace relProjectPath extraCommentArgs username
      = Except.error e ∧
    s.BuildApplyStage L log repoDir workspace relProjectPath extraCommentArgs username
      = Except.error e := by
  constructor
  · simp [ExecutionPlanner.BuildPlanStage, ExecutionPlanner.buildStage, herr, hother]
  · simp [ExecutionPlanner.BuildApplyStage, ExecutionPlanner.buildStage, herr, hother]

/-- C7 at a reader that fails with a parse error wrapped by `pkg/errors`. -/
theorem C7_read_error_propagated_witness :
    (Examples.planner Examples.config
        (some (GoError.withMessage (GoError.errorString "yaml: line 3: did not find expected key")
          "parsing atlantis.yaml"))).BuildPlanStage
        Examples.lib Examples.log "/repo" "default" "proj" [] "alice"
      = Except.error (GoError.withMessage
          (GoError.errorString "yaml: line 3: did not find expected key")
          "parsing atlantis.yaml") ∧
    (Examples.planner Examples.config
        (some (GoError.withMessage (GoError.errorString "yaml: line 3: did not find expected key")
          "parsing atlantis.yaml"))).BuildApplyStage
        Examples.lib Examples.log "/repo" "default" "proj" [] "alice"
      = Except.error (GoError.withMessage
          (GoError.errorString "yaml: line 3: did not find expected key")
          "parsing atlantis.yaml") :=
  C7_read_error_propagated Examples.lib _ Examples.log "/repo" "default" "proj" [] "alice"
    (GoError.withMessage (GoError.errorString "yaml: line 3: did not find expected key")
      "parsing atlantis.yaml") rfl rfl

/-- C3 as stated fails where the workflow name holds a double quote: for the undefined
workflow `a"b` the message is `no workflow with key "a\"b" defined`, with the quote escaped,
and not the name copied between two quotes. -/
theorem C3_verbatim_name_counterexample :
    Examples.quoteConfig.Projects.find?
        (fun q => decide (q.Dir = "proj" ∧ q.Workspace = "default"))
      = some { Dir := "proj", Workspace := "default", Workflow := "a\"b" } ∧
    Examples.quoteConfig.Workflows.lookup "a\"b" = none ∧
    (Examples.planner Examples.quoteConfig none).BuildPlanStage Examples.lib Examples.log
        "/repo" "default" "proj" [] "alice"
      = Except.error (GoError.errorString "no workflow with key \"a\\\"b\" defined") ∧
    (Examples.planner Examples.quoteConfig none).BuildPlanStage Examples.lib Examples.log
        "/repo" "default" "proj" [] "alice"
      ≠ Except.error
          (GoError.errorString ("no workflow with key " ++ verbatimQuoted "a\"b" ++ " defined")) := by
  refine ⟨by decide, by decide, by decide, by decide⟩

/-- C3, amended. When the configuration is read without error and the first project entry
matching `(relProjectPath, workspace)` has a non-empty workflow name that is not a key of the
workflows map, `BuildPlanStage` and `BuildApplyStage` return no stage but the error whose message
is `no workflow with key <q> defined`, where `<q>` is the name as `strconv.Quote` renders it
(the `%q` verb); `<q>` is the name copied between two double quotes whenever every rune of the
name is printable and is neither a double quote nor a backslash. -/
theorem C3_undefined_workflow_error (L : Stdlib) (s : ExecutionPlanner) (log : Handle)
    (repoDir workspace relProjectPath : String) (extraCommentArgs : List String)
    (username : String) (config : yaml.Config) (p : yaml.Project)
    (hread : s.ParserValidator.ReadConfig repoDir = (config, none))
    (hfirst : config.Projects.find?
      (fun q => decide (q.Dir = relProjectPath ∧ q.Workspace = workspace)) = some p)
    (hname : p.Workflow ≠ "")
    (hwf : config.Workflows.lookup p.Workflow = none) :
    s.BuildPlanStage L log repoDir workspace relProjectPath extraCommentArgs username
      = Except.error
          (GoError.errorString ("no workflow with key " ++ Quote L p.Workflow ++ " defined")) ∧
    s.BuildApplyStage L log repoDir workspace relProjectPath extraCommentArgs username
      = Except.error
          (GoError.errorString ("no workflow with key " ++ Quote L p.Workflow ++ " defined")) ∧
    (GoError.errorString ("no workflow with key " ++ Quote L p.Workflow ++ " defined")).Error
      = "no workflow with key " ++ Quote L p.Workflow ++ " defined" ∧
    ((∀ c ∈ p.Workflow.data, plainRune L c = true) →
      Quote L p.Workflow = verbatimQuoted p.Workflow) := by
  have hp : p.Dir = relProjectPath ∧ p.Workspace = workspace := by
    simpa using (List.find?_eq_some.mp hfirst).1
  have hstage : ∀ (stageName : String) (defaults : List (Option Step)),
      s.buildStage L stageName log repoDir workspace relProjectPath extraCommentArgs username
          defaults
        = Except.error
          (GoError.errorString ("no workflow with key " ++ Quote L p.Workflow ++ " defined")) := by
    intro stageName defaults
    rw [buildStage_read_ok L s stageName log repoDir workspace relProjectPath extraCommentArgs
        username defaults config hread,
      scanProjects_find_some L s stageName log repoDir workspace relProjectPath extraCommentArgs
        username defaults config.Workflows config.Projects p hfirst,
      scanProjects_match _ _ _ _ _ _ _ _ _ _ _ _ _ hp, if_neg hname, hwf]
  refine ⟨?_, ?_, rfl, Quote_plain L p.Workflow⟩
  · simp only [ExecutionPlanner.BuildPlanStage, hstage]
  · simp only [ExecutionPlanner.BuildApplyStage, hstage]

/-- C3, amended, at the example configuration: the entry for `other` names the workflow
`missing`, which is not defined. -/
theorem C3_undefined_workflow_error_witness :
    (Examples.planner Examples.config none).BuildPlanStage Examples.lib Examples.log
        "/repo" "default" "other" [] "alice"
      = Except.error (GoError.errorString
          ("no workflow with key " ++ Quote Examples.lib "missing" ++ " defined")) ∧
    Quote Examples.lib "missing" = verbatimQuoted "missing" := by
  have h := C3_undefined_workflow_error Examples.lib (Examples.planner Examples.config none)
    Examples.log "/repo" "default" "other" [] "alice" Examples.config
    { Dir := "other", Workspace := "default", Workflow := "missing" }
    rfl (by decide) (by decide) (by decide)
  exact ⟨h.1, h.2.2.2 (by decide)⟩

/-- C4. When the configuration is read without error and either no project entry has `Dir`
equal to `relProjectPath` and `Workspace` equal to `workspace`, or the first such entry has an
empty workflow name, `BuildPlanStage` returns without error exactly the default plan steps
(`InitStep`, `PlanStep`) and `BuildApplyStage` exactly the default apply steps (`ApplyStep`),
whatever the workflows map holds. -/
theorem C4_fallback_to_defaults (L : Stdlib) (s : ExecutionPlanner) (log : Handle)
    (repoDir workspace relProjectPath : String) (extraCommentArgs : List String)
    (username : String) (config : yaml.Config)
    (hread : s.ParserValidator.ReadConfig repoDir = (config, none))
    (hcase :
      config.Projects.find?
        (fun q => decide (q.Dir = relProjectPath ∧ q.Workspace = workspace)) = none ∨
      ∃ p : yaml.Project,
        config.Projects.find?
          (fun q => decide (q.Dir = relProjectPath ∧ q.Workspace = workspace)) = some p ∧
        p.Workflow = "") :
    s.BuildPlanStage L log repoDir workspace relProjectPath extraCommentArgs username
      = Except.ok { Steps :=
          [some (Step.init
            { ExtraArgs := []
              Meta := s.buildMeta L log repoDir workspace relProjectPath extraCommentArgs
                username }),
           some (Step.plan
            { ExtraArgs := []
              Meta := s.buildMeta L log repoDir workspace relProjectPath extraCommentArgs
                username })] } ∧
    s.BuildApplyStage L log repoDir workspace relProjectPath extraCommentArgs username
      = Except.ok { Steps :=
          [some (Step.apply
            { ExtraArgs := []
              Meta := s.buildMeta L log repoDir workspace relProjectPath extraCommentArgs
                username })] } := by
  have hstage : ∀ (stageName : String) (defaults : List (Option Step)),
      s.buildStage L stageName log repoDir workspace relProjectPath extraCommentArgs username
          defaults = Except.ok defaults := by
    intro stageName defaults
    rw [buildStage_read_ok L s stageName log repoDir workspace relProjectPath extraCommentArgs
        username defaults config hread]
    rcases hcase with hnone | ⟨p, hfirst, hempty⟩
    · exact scanProjects_find_none L s stageName log repoDir workspace relProjectPath
        extraCommentArgs username defaults config.Workflows config.Projects hnone
    · have hp : p.Dir = relProjectPath ∧ p.Workspace = workspace := by
        simpa using (List.find?_eq_some.mp hfirst).1
      rw [scanProjects_find_some L s stageName log repoDir workspace relProjectPath
          extraCommentArgs username defaults config.Workflows config.Projects p hfirst,
        scanProjects_match _ _ _ _ _ _ _ _ _ _ _ _ _ hp, if_pos hempty]
  constructor
  · simp only [ExecutionPlanner.BuildPlanStage, hstage, ExecutionPlanner.defaultPlanSteps]
  · simp only [ExecutionPlanner.BuildApplyStage, hstage, ExecutionPlanner.defaultApplySteps]

/-- C4 at two inputs: an entry with an empty workflow name (with a workflow stored under the
empty key), and a request for a directory no entry names. -/
theorem C4_fallback_to_defaults_witness :
    (Examples.planner Examples.emptyNameConfig none).BuildApplyStage Examples.lib Examples.log
        "/repo" "default" "proj" [] "alice"
      = Except.ok { Steps :=
          [some (Step.apply
            { ExtraArgs := []
              Meta := (Examples.planner Examples.emptyNameConfig none).buildMeta Examples.lib
                Examples.log "/repo" "default" "proj" [] "alice" })] } ∧
    (Examples.planner Examples.config none).BuildApplyStage Examples.lib Examples.log
        "/repo" "default" "elsewhere" [] "alice"
      = Except.ok { Steps :=
          [some (Step.apply
            { ExtraArgs := []
              Meta := (Examples.planner Examples.config none).buildMeta Examples.lib
                Examples.log "/repo" "default" "elsewhere" [] "alice" })] } :=
  ⟨(C4_fallback_to_defaults Examples.lib (Examples.planner Examples.emptyNameConfig none)
      Examples.log "/repo" "default" "proj" [] "alice" Examples.emptyNameConfig rfl
      (Or.inr ⟨{ Dir := "proj", Workspace := "default", Workflow := "" },
        by decide, rfl⟩)).2,
   (C4_fallback_to_defaults Examples.lib (Examples.planner Examples.config none)
      Examples.log "/repo" "default" "elsewhere" [] "alice" Examples.config rfl
      (Or.inl (by decide))).2⟩

/-- C5. When the project list is `pre ++ p :: rest` where no entry of `pre` matches
`(relProjectPath, workspace)` and `p` matches, the results of `BuildPlanStage` and
`BuildApplyStage` depend on `p` and the workflows map alone: any other list `pre2 ++ p :: rest2`
whose entries before `p` do not match (so with the entries after `p` replaced, removed or added,
matching or not) gives the same steps or the same error. -/
theorem C5_first_match_wins (L : Stdlib) (te : Handle) (tfv : Option Version)
    (read read2 : yaml.ParserValidator) (log : Handle)
    (repoDir workspace relProjectPath : String) (extraCommentArgs : List String)
    (username : String) (workflows : List (String × yaml.Workflow))
    (pre rest pre2 rest2 : List yaml.Project) (p : yaml.Project)
    (hread : read.ReadConfig repoDir
      = ({ Projects := pre ++ p :: rest, Workflows := workflows }, none))
    (hread2 : read2.ReadConfig repoDir
      = ({ Projects := pre2 ++ p :: rest2, Workflows := workflows }, none))
    (hpre : ∀ q ∈ pre, ¬ (q.Dir = relProjectPath ∧ q.Workspace = workspace))
    (hpre2 : ∀ q ∈ pre2, ¬ (q.Dir = relProjectPath ∧ q.Workspace = workspace))
    (hp : p.Dir = relProjectPath ∧ p.Workspace = workspace) :
    ExecutionPlanner.BuildPlanStage L
        { TerraformExecutor := te, DefaultTFVersion := tfv, ParserValidator := read }
        log repoDir workspace relProjectPath extraCommentArgs username
      = ExecutionPlanner.BuildPlanStage L
        { TerraformExecutor := te, DefaultTFVersion := tfv, ParserValidator := read2 }
        log repoDir workspace relProjectPath extraCommentArgs username ∧
    ExecutionPlanner.BuildApplyStage L
        { TerraformExecutor := te, DefaultTFVersion := tfv, ParserValidator := read }
        log repoDir workspace relProjectPath extraCommentArgs username
      = ExecutionPlanner.BuildApplyStage L
        { TerraformExecutor := te, DefaultTFVersion := tfv, ParserValidator := read2 }
        log repoDir workspace relProjectPath extraCommentArgs username := by
  have hstage : ∀ (stageName : String) (defaults : List (Option Step)),
      ExecutionPlanner.buildStage L
          { TerraformExecutor := te, DefaultTFVersion := tfv, ParserValidator := read }
          stageName log repoDir workspace relProjectPath extraCommentArgs username defaults
        = ExecutionPlanner.buildStage L
          { TerraformExecutor := te, DefaultTFVersion := tfv, ParserValidator := read2 }
          stageName log repoDir workspace relProjectPath extraCommentArgs username defaults := by
    intro stageName defaults
    rw [buildStage_read_ok L _ stageName log repoDir workspace relProjectPath extraCommentArgs
        username defaults _ hread,
      buildStage_read_ok L _ stageName log repoDir workspace relProjectPath extraCommentArgs
        username defaults _ hread2]
    simp only []
    rw [scanProjects_skip _ _ _ _ _ _ _ _ _ _ _ _ _ hpre,
      scanProjects_skip _ _ _ _ _ _ _ _ _ _ _ _ _ hpre2,
      scanProjects_match _ _ _ _ _ _ _ _ _ _ _ _ _ hp,
      scanProjects_match _ _ _ _ _ _ _ _ _ _ _ _ _ hp]
    rfl
  constructor
  · simp only [ExecutionPlanner.BuildPlanStage, hstage]
    rfl
  · simp only [ExecutionPlanner.BuildApplyStage, hstage]
    rfl

/-- C5 at the example configuration, which has two entries for `proj` in workspace `default`:
dropping the entry before the first of them and replacing the later duplicate by two other
entries leaves the plan stage and the apply stage unchanged. -/
theorem C5_first_match_wins_witness :
    (Examples.planner Examples.config none).BuildPlanStage Examples.lib Examples.log
        "/repo" "default" "proj" [] "alice"
      = (Examples.planner
          { Projects := [{ Dir := "proj", Workspace := "default", Workflow := "custom" },
                         { Dir := "proj", Workspace := "default", Workflow := "missing" },
                         { Dir := "z", Workspace := "default", Workflow := "" }]
            Workflows := [("custom", Examples.customWorkflow)] } none).BuildPlanStage
          Examples.lib Examples.log "/repo" "default" "proj" [] "alice" ∧
    (Examples.planner Examples.config none).BuildApplyStage Examples.lib Examples.log
        "/repo" "default" "proj" [] "alice"
      = (Examples.planner
          { Projects := [{ Dir := "proj", Workspace := "default", Workflow := "custom" },
                         { Dir := "proj", Workspace := "default", Workflow := "missing" },
                         { Dir := "z", Workspace := "default", Workflow := "" }]
            Workflows := [("custom", Examples.customWorkflow)] } none).BuildApplyStage
          Examples.lib Examples.log "/repo" "default" "proj" [] "alice" :=
  C5_first_match_wins Examples.lib { addr := 1 }
    (some { metadata := "", pre := "", segments := [0, 11, 7], original := "0.11.7" })
    { ReadConfig := fun _ => (Examples.config, none) }
    { ReadConfig := fun _ =>
        ({ Projects := [{ Dir := "proj", Workspace := "default", Workflow := "custom" },
                        { Dir := "proj", Workspace := "default", Workflow := "missing" },
                        { Dir := "z", Workspace := "default", Workflow := "" }]
           Workflows := [("custom", Examples.customWorkflow)] }, none) }
    Examples.log "/repo" "default" "proj" [] "alice" [("custom", Examples.customWorkflow)]
    [{ Dir := "other", Workspace := "default", Workflow := "missing" }]
    [{ Dir := "proj", Workspace := "default", Workflow := "" }]
    []
    [{ Dir := "proj", Workspace := "default", Workflow := "missing" },
     { Dir := "z", Workspace := "default", Workflow := "" }]
    { Dir := "proj", Workspace := "default", Workflow := "custom" }
    rfl rfl (by decide) (by decide) (by decide)

/-- C6. In every successful result of `BuildPlanStage` or `BuildApplyStage`, each step present
in the returned stage carries the same meta, namely the one `buildMeta` builds from the inputs:
`Workspace = workspace`, `AbsolutePath = Join repoDir relProjectPath`,
`DirRelativeToRepoRoot = relProjectPath`, `ExtraCommentArgs = extraCommentArgs`,
`Username = username` and `TerraformVersion` the planner's `DefaultTFVersion` (and the logger
and executor handles of the call and the planner). -/
theorem C6_steps_share_meta (L : Stdlib) (s : ExecutionPlanner) (log : Handle)
    (repoDir workspace relProjectPath : String) (extraCommentArgs : List String)
    (username : String) :
    (∀ stage : PlanStage,
      s.BuildPlanStage L log repoDir workspace relProjectPath extraCommentArgs username
        = Except.ok stage →
      ∀ step : Step, some step ∈ stage.Steps →
        step.Meta
          = s.buildMeta L log repoDir workspace relProjectPath extraCommentArgs username) ∧
    (∀ stage : ApplyStage,
      s.BuildApplyStage L log repoDir workspace relProjectPath extraCommentArgs username
        = Except.ok stage →
      ∀ step : Step, some step ∈ stage.Steps →
        step.Meta
          = s.buildMeta L log repoDir workspace relProjectPath extraCommentArgs username) ∧
    s.buildMeta L log repoDir workspace relProjectPath extraCommentArgs username
      = { Log := log
          Workspace := workspace
          AbsolutePath := L.Join repoDir relProjectPath
          DirRelativeToRepoRoot := relProjectPath
          TerraformVersion := s.DefaultTFVersion
          TerraformExecutor := s.TerraformExecutor
          ExtraCommentArgs := extraCommentArgs
          Username := username } := by
  refine ⟨?_, ?_, rfl⟩
  · intro stage hok step hmem
    unfold ExecutionPlanner.BuildPlanStage at hok
    simp only [] at hok
    split at hok
    · cases hok
    · rename_i steps hsteps
      cases hok
      refine buildStage_meta L s PlanStageName log repoDir workspace relProjectPath
        extraCommentArgs username _ ?_ steps hsteps step hmem
      intro st hst
      simp only [ExecutionPlanner.defaultPlanSteps, List.mem_cons, List.mem_singleton,
        List.not_mem_nil, or_false, Option.some.injEq] at hst
      rcases hst with h | h <;> subst h <;> rfl
  · intro stage hok step hmem
    unfold ExecutionPlanner.BuildApplyStage at hok
    simp only [] at hok
    split at hok
    · cases hok
    · rename_i steps hsteps
      cases hok
      refine buildStage_meta L s ApplyStageName log repoDir workspace relProjectPath
        extraCommentArgs username _ ?_ steps hsteps step hmem
      intro st hst
      simp only [ExecutionPlanner.defaultApplySteps, List.mem_cons, List.mem_singleton,
        List.not_mem_nil, or_false, Option.some.injEq] at hst
      subst hst
      rfl

/-- C8. A raw project entry whose `dir` is present and has a parent-directory segment `..`
(as `../escape` has) fails `Validate`, with the error `cannot contain '..'` for the field `Dir`,
whatever the other fields hold; an entry whose `dir` is `subdir`, with no apply requirements and
no pinned version, passes `Validate`. -/
theorem C8_parent_segment_rejected (L : Stdlib) :
    (∀ (p : raw.Project) (dir : String), p.Dir = some dir → raw.hasParentSegment dir = true →
      ∃ errs : validation.Errors,
        p.Validate L = Result.ret (some errs) ∧
        errs.lookup "Dir" = some (GoError.errorString "cannot contain '..'")) ∧
    raw.hasParentSegment "../escape" = true ∧
    (∀ p : raw.Project, p.Dir = some "subdir" → p.ApplyRequirements = [] →
      p.TerraformVersion = none → p.Validate L = Result.ret none) := by
  refine ⟨?_, by decide, ?_⟩
  · intro p dir hdir hseg
    apply raw.Validate_of_Dir_error
    rw [hdir]
    exact raw.Validate_Dir_dotdot dir (raw.Contains_of_hasParentSegment dir hseg)
  · intro p hdir hreq htf
    have hvalid := raw.Validate_Dir_valid "subdir" (by decide) (by decide)
    unfold raw.Project.Validate
    rw [hdir, hreq, htf, hvalid, raw.Validate_single, raw.Validate_single]
    rfl

/-- C8 at an entry with `dir: ../escape` whose other validated fields are invalid too, and at
an entry with `dir: subdir`. -/
theorem C8_parent_segment_rejected_witness :
    (∃ errs : validation.Errors,
      raw.Project.Validate Examples.lib
          { Name := some "n", Dir := some "../escape", Workspace := none, Workflow := some "w",
            TerraformVersion := some "not-a-version", Autoplan := none,
            ApplyRequirements := ["mandatory"] }
        = Result.ret (some errs) ∧
      errs.lookup "Dir" = some (GoError.errorString "cannot contain '..'")) ∧
    raw.Project.Validate Examples.lib
        { Name := none, Dir := some "subdir", Workspace := some "staging", Workflow := none,
          TerraformVersion := none, Autoplan := none, ApplyRequirements := [] }
      = Result.ret none :=
  ⟨(C8_parent_segment_rejected Examples.lib).1 _ "../escape" rfl (by decide),
   (C8_parent_segment_rejected Examples.lib).2.2 _ rfl rfl rfl⟩

/-- C9. A raw project entry whose `dir` is absent fails `Validate`, with the error
`cannot be blank` for the field `Dir`, whatever the other fields hold; `Validate` returns and does
not panic, although `hasDotDot` itself panics on the absent `dir`. -/
theorem C9_absent_dir_rejected (L : Stdlib) (p : raw.Project) (hdir : p.Dir = none) :
    (∃ errs : validation.Errors,
      p.Validate L = Result.ret (some errs) ∧
      errs.lookup "Dir" = some (GoError.errorString "cannot be blank")) ∧
    p.Validate L ≠ Result.panic ∧
    raw.hasDotDot p.Dir = Result.panic := by
  have h : ∃ errs : validation.Errors,
      p.Validate L = Result.ret (some errs) ∧
      errs.lookup "Dir" = some (GoError.errorString "cannot be blank") := by
    apply raw.Validate_of_Dir_error
    rw [hdir]
    exact raw.Validate_Dir_nil
  refine ⟨h, ?_, by rw [hdir]; rfl⟩
  obtain ⟨errs, herrs, _⟩ := h
  rw [herrs]
  exact fun hcontra => by cases hcontra

/-- C9 at an entry without `dir` whose other validated fields are invalid too. -/
theorem C9_absent_dir_rejected_witness :
    ∃ errs : validation.Errors,
      raw.Project.Validate Examples.lib
          { Name := none, Dir := none, Workspace := none, Workflow := none,
            TerraformVersion := some "not-a-version", Autoplan := none,
            ApplyRequirements := ["mandatory"] }
        = Result.ret (some errs) ∧
      errs.lookup "Dir" = some (GoError.errorString "cannot be blank") :=
  (C9_absent_dir_rejected Examples.lib _ rfl).1

/-- C6 at the example configuration: the apply stage of `proj` is the configured `run` and
`apply` steps, and the `run` step carries the meta built from the inputs. -/
theorem C6_steps_share_meta_witness :
    (Step.run
        { Commands := ["echo", "hi"]
          Meta := (Examples.planner Examples.config none).buildMeta Examples.lib Examples.log
            "/repo" "default" "proj" ["-verbose"] "alice" }).Meta
      = { Log := Examples.log
          Workspace := "default"
          AbsolutePath := Examples.lib.Join "/repo" "proj"
          DirRelativeToRepoRoot := "proj"
          TerraformVersion := (Examples.planner Examples.config none).DefaultTFVersion
          TerraformExecutor := (Examples.planner Examples.config none).TerraformExecutor
          ExtraCommentArgs := ["-verbose"]
          Username := "alice" } :=
  ((C6_steps_share_meta Examples.lib (Examples.planner Examples.config none) Examples.log
      "/repo" "default" "proj" ["-verbose"] "alice").2.1
    { Steps :=
        [some (Step.run
          { Commands := ["echo", "hi"]
            Meta := (Examples.planner Examples.config none).buildMeta Examples.lib Examples.log
              "/repo" "default" "proj" ["-verbose"] "alice" }),
         some (Step.apply
          { ExtraArgs := ["-bar"]
            Meta := (Examples.planner Examples.config none).buildMeta Examples.lib Examples.log
              "/repo" "default" "proj" ["-verbose"] "alice" })] }
    (by decide) _ (List.mem_cons_self _ _)).trans
  (C6_steps_share_meta Examples.lib (Examples.planner Examples.config none) Examples.log
      "/repo" "default" "proj" ["-verbose"] "alice").2.2

/-- C10 as stated fails where the offending requirement holds a double quote: for
`apply_requirements: ['a"b']` the error of the field is
`"a\"b" not supported, only approved is supported`, with the quote escaped, and not the value
copied between two quotes. -/
theorem C10_verbatim_value_counterexample :
    raw.Project.Validate Examples.lib
        { Name := none, Dir := some "subdir", Workspace := none, Workflow := none,
          TerraformVersion := none, Autoplan := none, ApplyRequirements := ["a\"b"] }
      = Result.ret (some [("ApplyRequirements",
          GoError.errorString "\"a\\\"b\" not supported, only approved is supported")]) ∧
    raw.Project.Validate Examples.lib
        { Name := none, Dir := some "subdir", Workspace := none, Workflow := none,
          TerraformVersion := none, Autoplan := none, ApplyRequirements := ["a\"b"] }
      ≠ Result.ret (some [("ApplyRequirements",
          GoError.errorString
            (verbatimQuoted "a\"b" ++ " not supported, only approved is supported"))]) := by
  refine ⟨by decide, by decide⟩

/-- C10, amended. For a raw project entry with a valid `dir` (present, not empty, without `..`)
and no pinned version, `Validate` succeeds if and only if every element of the apply requirements
equals `approved`; when some element differs, `Validate` fails with the single error
`<q> not supported, only approved is supported` for the field `ApplyRequirements`, where `<q>`
is the first offending element as `strconv.Quote` renders it (the `%q` verb); `<q>` is the
element copied between two double quotes whenever every rune of it is printable and is neither
a double quote nor a backslash. -/
theorem C10_apply_requirements (L : Stdlib) (p : raw.Project) (dir : String)
    (hdir : p.Dir = some dir) (hne : dir ≠ "") (hdd : Contains dir ".." = false)
    (htf : p.TerraformVersion = none) :
    (p.Validate L = Result.ret none
      ↔ ∀ r ∈ p.ApplyRequirements, r = raw.ApprovedApplyRequirement) ∧
    (∀ r : String,
      p.ApplyRequirements.find? (fun r => decide (r ≠ raw.ApprovedApplyRequirement)) = some r →
      p.Validate L
        = Result.ret (some [("ApplyRequirements",
            GoError.errorString (Quote L r ++ " not supported, only approved is supported"))]) ∧
      ((∀ c ∈ r.data, plainRune L c = true) → Quote L r = verbatimQuoted r)) := by
  have hval := raw.Validate_of_valid_Dir L p dir hdir hne hdd htf
  constructor
  · cases hfind : p.ApplyRequirements.find?
        (fun r => decide (r ≠ raw.ApprovedApplyRequirement)) with
    | none =>
      rw [hfind] at hval
      have hall := List.find?_eq_none.mp hfind
      constructor
      · intro _ r hr
        simpa using hall r hr
      · intro _
        exact hval
    | some r =>
      rw [hfind] at hval
      have hmem : r ∈ p.ApplyRequirements := List.mem_of_find?_eq_some hfind
      have hbad : r ≠ raw.ApprovedApplyRequirement := by
        simpa using List.find?_some hfind
      constructor
      · intro hnone
        rw [hval] at hnone
        cases hnone
      · intro hall
        exact absurd (hall r hmem) hbad
  · intro r hfind
    rw [hfind] at hval
    exact ⟨hval, Quote_plain L r⟩

/-- C10, amended, at entries with `apply_requirements: [approved]` and
`apply_requirements: [approved, mandatory, other]`. -/
theorem C10_apply_requirements_witness :
    raw.Project.Validate Examples.lib
        { Name := none, Dir := some "subdir", Workspace := none, Workflow := none,
          TerraformVersion := none, Autoplan := none, ApplyRequirements := ["approved"] }
      = Result.ret none ∧
    raw.Project.Validate Examples.lib
        { Name := none, Dir := some "subdir", Workspace := none, Workflow := none,
          TerraformVersion := none, Autoplan := none,
          ApplyRequirements := ["approved", "mandatory", "other"] }
      = Result.ret (some [("ApplyRequirements", GoError.errorString
          (Quote Examples.lib "mandatory" ++ " not supported, only approved is supported"))]) ∧
    Quote Examples.lib "mandatory" = verbatimQuoted "mandatory" :=
  ⟨(C10_apply_requirements Examples.lib _ "subdir" rfl (by decide) (by decide) rfl).1.mpr
      (by decide),
   ((C10_apply_requirements Examples.lib _ "subdir" rfl (by decide) (by decide) rfl).2
      "mandatory" (by decide)).1,
   ((C10_apply_requirements Examples.lib
      { Name := none, Dir := some "subdir", Workspace := none, Workflow := none,
        TerraformVersion := none, Autoplan := none,
        ApplyRequirements := ["approved", "mandatory", "other"] }
      "subdir" rfl (by decide) (by decide) rfl).2 "mandatory" (by decide)).2 (by decide)⟩

/-! ## Lemmas on `Validate` as a whole and on `ToValid` -/

namespace raw

/-- The rules of the `Dir` field never panic, and they pass exactly on a pointer to a non-empty
string without `..`. -/
theorem Validate_Dir_outcome (d : Option String) :
    ∃ o : Option GoError,
      validation.Validate d [validation.Required, validation.By hasDotDot] = Result.ret o ∧
      (o = none ↔ ∃ dir, d = some dir ∧ dir ≠ "" ∧ Contains dir ".." = false) := by
  cases d with
  | none => exact ⟨_, Validate_Dir_nil, by simp⟩
  | some dir =>
    by_cases hne : dir = ""
    · subst hne
      exact ⟨some (GoError.errorString "cannot be blank"),
        by simp [validation.Validate, validation.Required], by simp⟩
    · cases hdd : Contains dir ".." with
      | true => exact ⟨_, Validate_Dir_dotdot dir hdd, by simp [hdd]⟩
      | false => exact ⟨none, Validate_Dir_valid dir hne hdd, by simp [hne, hdd]⟩

/-- The closure `validTFVersion` in closed form. -/
theorem validTFVersion_eq (L : Stdlib) (tv : Option String) :
    validTFVersion L tv
      = Result.ret
        (match tv with
        | none => none
        | some str =>
          match L.NewVersion str with
          | Except.error e =>
            some (GoError.withMessage e ("version " ++ Quote L str ++ " could not be parsed"))
          | Except.ok _ => none) := by
  cases tv with
  | none => rfl
  | some str =>
    simp only [validTFVersion]
    cases L.NewVersion str <;> rfl

/-- Three fields that do not panic pass `ValidateStruct` exactly when none of them failed. -/
theorem ValidateStruct_three (n1 n2 n3 : String) (o1 o2 o3 : Option GoError) :
    validation.ValidateStruct [(n1, Result.ret o1), (n2, Result.ret o2), (n3, Result.ret o3)]
        = Result.ret none
      ↔ o1 = none ∧ o2 = none ∧ o3 = none := by
  cases o1 <;> cases o2 <;> cases o3 <;>
    simp [validation.ValidateStruct, validation.collect]

/-- The apply requirements pass exactly when no element differs from `approved`. -/
theorem applyReq_none_iff (L : Stdlib) (reqs : List String) :
    (reqs.find? (fun r => decide (r ≠ ApprovedApplyRequirement))).map
        (fun r => GoError.errorString
          (Quote L r ++ " not supported, only " ++ ApprovedApplyRequirement ++ " is supported"))
        = none
      ↔ ∀ r ∈ reqs, r = ApprovedApplyRequirement := by
  rw [Option.map_eq_none', List.find?_eq_none]
  constructor
  · intro h r hr
    simpa using h r hr
  · intro h r hr
    simpa using h r hr

/-- The pinned version passes exactly when it is absent or the parser accepts it. -/
theorem tfVersion_none_iff (L : Stdlib) (tv : Option String) :
    (match tv with
      | none => none
      | some str =>
        match L.NewVersion str with
        | Except.error e =>
          some (GoError.withMessage e ("version " ++ Quote L str ++ " could not be parsed"))
        | Except.ok _ => none) = none
      ↔ ∀ str, tv = some str → ∃ v, L.NewVersion str = Except.ok v := by
  cases tv with
  | none => simp
  | some str =>
    cases h : L.NewVersion str with
    | error e => simp [h]
    | ok v => simp [h]

/-- `Validate` succeeds exactly when the three validated fields are all in order. -/
theorem Validate_ret_none_iff (L : Stdlib) (p : Project) :
    p.Validate L = Result.ret none
      ↔ (∃ dir, p.Dir = some dir ∧ dir ≠ "" ∧ Contains dir ".." = false) ∧
        (∀ r ∈ p.ApplyRequirements, r = ApprovedApplyRequirement) ∧
        (∀ str, p.TerraformVersion = some str → ∃ v, L.NewVersion str = Except.ok v) := by
  obtain ⟨o1, h1, hiff1⟩ := Validate_Dir_outcome p.Dir
  unfold Project.Validate
  rw [h1, Validate_single, Validate_single]
  simp only [validation.By, validApplyReq_eq, validTFVersion_eq]
  rw [ValidateStruct_three, hiff1, applyReq_none_iff, tfVersion_none_iff]

/-- `ToValid` on an entry whose `Dir` is present. -/
theorem ToValid_of_Dir (L : Stdlib) (A : AutoplanOps) (p : Project) (dir : String)
    (hdir : p.Dir = some dir) :
    p.ToValid L A
      = Result.ret
        { Dir := dir
          Workspace :=
            match p.Workspace with
            | none => DefaultWorkspace
            | some w => w
          Workflow := p.Workflow
          TerraformVersion :=
            match p.TerraformVersion with
            | none => none
            | some str => parsedVersion L str
          Autoplan :=
            match p.Autoplan with
            | none => A.DefaultAutoPlan
            | some a => A.ToValid a
          ApplyRequirements := p.ApplyRequirements
          Name := p.Name } := by
  simp only [Project.ToValid, hdir]

end raw

/-- A string occurs in every string it starts. -/
theorem Contains_append_left (a b : String) : Contains (a ++ b) a = true := by
  refine (containsChars_iff_occurs _ _).mpr ⟨[], b.data, ?_⟩
  simp [String.data_append]

/-! ## The claims on the pinned version and on `ToValid` -/

/-- C11 as stated fails where the pinned version holds a double quote: for
`terraform_version: 'a"b'`, which the parser rejects, the message of the error reported for
the field is `version "a\"b" could not be parsed: Malformed version: a"b`, with the quote
escaped, and does not contain the value copied between two quotes. -/
theorem C11_verbatim_version_counterexample :
    raw.Project.Validate Examples.lib
        { Name := none, Dir := some "subdir", Workspace := none, Workflow := none,
          TerraformVersion := some "a\"b", Autoplan := none, ApplyRequirements := [] }
      = Result.ret (some [("TerraformVersion",
          GoError.withMessage (GoError.errorString "Malformed version: a\"b")
            "version \"a\\\"b\" could not be parsed")]) ∧
    Contains
        (GoError.withMessage (GoError.errorString "Malformed version: a\"b")
          "version \"a\\\"b\" could not be parsed").Error
        ("version " ++ verbatimQuoted "a\"b" ++ " could not be parsed") = false := by
  refine ⟨by decide, by decide⟩

/-- C11, amended. For a raw project entry with a valid `dir` and valid apply requirements:
`Validate` succeeds when `terraform_version` is absent; when it is present `Validate` succeeds
exactly when the version parser accepts the string; when the parser rejects it with an error
`e`, `Validate` fails with an error, reported for the field `TerraformVersion`, that wraps `e`
and whose message contains `version <q> could not be parsed`, where `<q>` is the string as
`strconv.Quote` renders it (the `%q` verb); `<q>` is the string copied between two double
quotes whenever every rune of it is printable and is neither a double quote nor a
backslash. -/
theorem C11_pinned_version (L : Stdlib) (p : raw.Project) (dir : String)
    (hdir : p.Dir = some dir) (hne : dir ≠ "") (hdd : Contains dir ".." = false)
    (hreqs : ∀ r ∈ p.ApplyRequirements, r = raw.ApprovedApplyRequirement) :
    (p.TerraformVersion = none → p.Validate L = Result.ret none) ∧
    (∀ str : String, p.TerraformVersion = some str →
      (p.Validate L = Result.ret none ↔ ∃ v, L.NewVersion str = Except.ok v) ∧
      (∀ e : GoError, L.NewVersion str = Except.error e →
        p.Validate L
          = Result.ret (some [("TerraformVersion",
              GoError.withMessage e ("version " ++ Quote L str ++ " could not be parsed"))]) ∧
        (GoError.withMessage e ("version " ++ Quote L str ++ " could not be parsed")).Error
          = "version " ++ Quote L str ++ " could not be parsed" ++ ": " ++ e.Error ∧
        Contains
          (GoError.withMessage e ("version " ++ Quote L str ++ " could not be parsed")).Error
          ("version " ++ Quote L str ++ " could not be parsed") = true ∧
        ((∀ c ∈ str.data, plainRune L c = true) → Quote L str = verbatimQuoted str))) := by
  have hdirok : ∃ d, p.Dir = some d ∧ d ≠ "" ∧ Contains d ".." = false :=
    ⟨dir, hdir, hne, hdd⟩
  constructor
  · intro htf
    rw [raw.Validate_ret_none_iff]
    exact ⟨hdirok, hreqs, by simp [htf]⟩
  · intro str htf
    constructor
    · rw [raw.Validate_ret_none_iff]
      constructor
      · intro h
        exact h.2.2 str htf
      · intro h
        refine ⟨hdirok, hreqs, ?_⟩
        intro str2 hstr2
        rw [htf] at hstr2
        cases hstr2
        exact h
    · intro e he
      refine ⟨?_, rfl, ?_, Quote_plain L str⟩
      · have hfind : p.ApplyRequirements.find?
            (fun r => decide (r ≠ raw.ApprovedApplyRequirement)) = none := by
          rw [List.find?_eq_none]
          intro r hr
          simpa using hreqs r hr
        unfold raw.Project.Validate
        rw [hdir, htf, raw.Validate_Dir_valid dir hne hdd, raw.Validate_single,
          raw.Validate_single]
        simp only [validation.By, raw.validApplyReq_eq, raw.validTFVersion_eq, hfind, he]
        simp [validation.ValidateStruct, validation.collect]
      · simp only [GoError.Error]
        rw [String.append_assoc ("version " ++ Quote L str ++ " could not be parsed")]
        exact Contains_append_left _ _

/-- C11, amended, at entries pinning `0.12.0`, which the example parser accepts, and
`not-a-version`, which it rejects. -/
theorem C11_pinned_version_witness :
    raw.Project.Validate Examples.lib
        { Name := none, Dir := some "subdir", Workspace := none, Workflow := none,
          TerraformVersion := some "0.12.0", Autoplan := none,
          ApplyRequirements := ["approved"] }
      = Result.ret none ∧
    raw.Project.Validate Examples.lib
        { Name := none, Dir := some "subdir", Workspace := none, Workflow := none,
          TerraformVersion := some "not-a-version", Autoplan := none,
          ApplyRequirements := ["approved"] }
      = Result.ret (some [("TerraformVersion",
          GoError.withMessage (GoError.errorString "Malformed version: not-a-version")
            ("version " ++ Quote Examples.lib "not-a-version" ++ " could not be parsed"))]) ∧
    Quote Examples.lib "not-a-version" = verbatimQuoted "not-a-version" :=
  ⟨((C11_pinned_version Examples.lib _ "subdir" rfl (by decide) (by decide) (by decide)).2
      "0.12.0" rfl).1.mpr ⟨_, rfl⟩,
   (((C11_pinned_version Examples.lib _ "subdir" rfl (by decide) (by decide) (by decide)).2
      "not-a-version" rfl).2 _ rfl).1,
   (((C11_pinned_version Examples.lib
      { Name := none, Dir := some "subdir", Workspace := none, Workflow := none,
        TerraformVersion := some "not-a-version", Autoplan := none,
        ApplyRequirements := ["approved"] }
      "subdir" rfl (by decide) (by decide) (by decide)).2
      "not-a-version" rfl).2 (GoError.errorString "Malformed version: not-a-version") rfl).2.2.2
      (by decide)⟩

/-- C12. For a raw project entry whose `dir` is present, `ToValid` returns an entry whose
workspace is `default` when the raw workspace is unset, and is `w` when the raw workspace is set
to `w`. -/
theorem C12_workspace_default (L : Stdlib) (A : raw.AutoplanOps) (p : raw.Project)
    (dir : String) (hdir : p.Dir = some dir) :
    (p.Workspace = none →
      ∃ v : valid.Project, p.ToValid L A = Result.ret v ∧ v.Workspace = "default") ∧
    (∀ w : String, p.Workspace = some w →
      ∃ v : valid.Project, p.ToValid L A = Result.ret v ∧ v.Workspace = w) := by
  constructor
  · intro hws
    refine ⟨_, raw.ToValid_of_Dir L A p dir hdir, ?_⟩
    simp only [hws]
    rfl
  · intro w hws
    refine ⟨_, raw.ToValid_of_Dir L A p dir hdir, ?_⟩
    simp only [hws]

/-- C12 at an entry without workspace and at an entry with `workspace: staging`. -/
theorem C12_workspace_default_witness :
    (∃ v : valid.Project,
      raw.Project.ToValid Examples.lib Examples.autoplanOps
          { Name := none, Dir := some "subdir", Workspace := none, Workflow := none,
            TerraformVersion := none, Autoplan := none, ApplyRequirements := [] }
        = Result.ret v ∧ v.Workspace = "default") ∧
    (∃ v : valid.Project,
      raw.Project.ToValid Examples.lib Examples.autoplanOps
          { Name := none, Dir := some "subdir", Workspace := some "staging", Workflow := none,
            TerraformVersion := none, Autoplan := none, ApplyRequirements := [] }
        = Result.ret v ∧ v.Workspace = "staging") :=
  ⟨(C12_workspace_default Examples.lib Examples.autoplanOps _ "subdir" rfl).1 rfl,
   (C12_workspace_default Examples.lib Examples.autoplanOps _ "subdir" rfl).2 "staging" rfl⟩

/-- C13 as stated fails for `workspace: ""`: the entry with `dir: subdir` and the workspace set
to the empty string passes `Validate`, which does not look at the workspace, and `ToValid`
copies the empty workspace. -/
theorem C13_empty_workspace_counterexample :
    raw.Project.Validate Examples.lib
        { Name := none, Dir := some "subdir", Workspace := some "", Workflow := none,
          TerraformVersion := none, Autoplan := none, ApplyRequirements := [] }
      = Result.ret none ∧
    ∃ v : valid.Project,
      raw.Project.ToValid Examples.lib Examples.autoplanOps
          { Name := none, Dir := some "subdir", Workspace := some "", Workflow := none,
            TerraformVersion := none, Autoplan := none, ApplyRequirements := [] }
        = Result.ret v ∧ v.Workspace = "" :=
  ⟨by decide, _, rfl, rfl⟩

/-- C13, amended. For a raw project entry that passes `Validate`, `ToValid` returns an entry
whose workspace is empty exactly when the raw workspace is set to the empty string: it is not
empty when the raw workspace is unset or set to a non-empty string. -/
theorem C13_workspace_nonempty (L : Stdlib) (A : raw.AutoplanOps) (p : raw.Project)
    (hvalid : p.Validate L = Result.ret none) :
    ∃ v : valid.Project,
      p.ToValid L A = Result.ret v ∧
      (v.Workspace = "" ↔ p.Workspace = some "") ∧
      (p.Workspace = none → v.Workspace ≠ "") ∧
      (∀ w : String, p.Workspace = some w → w ≠ "" → v.Workspace ≠ "") := by
  obtain ⟨⟨dir, hdir, _, _⟩, _, _⟩ := (raw.Validate_ret_none_iff L p).mp hvalid
  refine ⟨_, raw.ToValid_of_Dir L A p dir hdir, ?_, ?_, ?_⟩
  · cases hws : p.Workspace with
    | none =>
      simp only []
      constructor
      · intro h
        exact absurd h (by decide)
      · intro h
        cases h
    | some w =>
      simp only [Option.some.injEq]
  · intro hws
    simp only [hws]
    decide
  · intro w hws hw
    simp only [hws]
    exact hw

/-- C13, amended, at a valid entry with `workspace: staging`. -/
theorem C13_workspace_nonempty_witness :
    ∃ v : valid.Project,
      raw.Project.ToValid Examples.lib Examples.autoplanOps
          { Name := none, Dir := some "subdir", Workspace := some "staging", Workflow := none,
            TerraformVersion := none, Autoplan := none, ApplyRequirements := ["approved"] }
        = Result.ret v ∧ v.Workspace ≠ "" := by
  obtain ⟨v, hv, _, _, hsome⟩ := C13_workspace_nonempty Examples.lib Examples.autoplanOps
    { Name := none, Dir := some "subdir", Workspace := some "staging", Workflow := none,
      TerraformVersion := none, Autoplan := none, ApplyRequirements := ["approved"] }
    (by decide)
  exact ⟨v, hv, hsome "staging" rfl (by decide)⟩

/-- C14. For a raw project entry that passes `Validate`, `ToValid` returns and does not panic
(the raw `dir` is present), and the directory of the entry it returns is the raw `dir` and is not
empty. -/
theorem C14_dir_defined (L : Stdlib) (A : raw.AutoplanOps) (p : raw.Project)
    (hvalid : p.Validate L = Result.ret none) :
    p.ToValid L A ≠ Result.panic ∧
    ∃ (v : valid.Project) (dir : String),
      p.ToValid L A = Result.ret v ∧ p.Dir = some dir ∧ v.Dir = dir ∧ v.Dir ≠ "" := by
  obtain ⟨⟨dir, hdir, hne, _⟩, _, _⟩ := (raw.Validate_ret_none_iff L p).mp hvalid
  have hret := raw.ToValid_of_Dir L A p dir hdir
  refine ⟨?_, _, dir, hret, hdir, rfl, hne⟩
  rw [hret]
  exact fun hcontra => by cases hcontra

/-- C14 at a valid entry with `dir: subdir`. -/
theorem C14_dir_defined_witness :
    ∃ (v : valid.Project) (dir : String),
      raw.Project.ToValid Examples.lib Examples.autoplanOps
          { Name := none, Dir := some "subdir", Workspace := none, Workflow := none,
            TerraformVersion := none, Autoplan := none, ApplyRequirements := ["approved"] }
        = Result.ret v ∧
      (some "subdir" : Option String) = some dir ∧ v.Dir = dir ∧ v.Dir ≠ "" :=
  (C14_dir_defined Examples.lib Examples.autoplanOps
    { Name := none, Dir := some "subdir", Workspace := none, Workflow := none,
      TerraformVersion := none, Autoplan := none, ApplyRequirements := ["approved"] }
    (by decide)).2

/-- C15. For a raw project entry that passes `Validate`: when `terraform_version` is present,
the parser accepts the string and the `TerraformVersion` of the entry `ToValid` returns is
present and is the version the parser returns for it; when `terraform_version` is absent, the
`TerraformVersion` of the returned entry is absent. -/
theorem C15_version_parsed (L : Stdlib) (A : raw.AutoplanOps) (p : raw.Project)
    (hvalid : p.Validate L = Result.ret none) :
    ∃ v : valid.Project,
      p.ToValid L A = Result.ret v ∧
      (∀ str : String, p.TerraformVersion = some str →
        ∃ ver : Version, L.NewVersion str = Except.ok ver ∧ v.TerraformVersion = some ver) ∧
      (p.TerraformVersion = none → v.TerraformVersion = none) := by
  obtain ⟨⟨dir, hdir, _, _⟩, _, htf⟩ := (raw.Validate_ret_none_iff L p).mp hvalid
  refine ⟨_, raw.ToValid_of_Dir L A p dir hdir, ?_, ?_⟩
  · intro str hstr
    obtain ⟨ver, hver⟩ := htf str hstr
    refine ⟨ver, hver, ?_⟩
    simp only [hstr, raw.parsedVersion, hver]
  · intro hnone
    simp only [hnone]

/-- C15 at a valid entry pinning `0.12.0`, which the example parser accepts. -/
theorem C15_version_parsed_witness :
    ∃ v : valid.Project,
      raw.Project.ToValid Examples.lib Examples.autoplanOps
          { Name := none, Dir := some "subdir", Workspace := none, Workflow := none,
            TerraformVersion := some "0.12.0", Autoplan := none, ApplyRequirements := [] }
        = Result.ret v ∧
      v.TerraformVersion
        = some { metadata := "", pre := "", segments := [0, 12, 0], original := "0.12.0" } := by
  obtain ⟨v, hv, hsome, _⟩ := C15_version_parsed Examples.lib Examples.autoplanOps
    { Name := none, Dir := some "subdir", Workspace := none, Workflow := none,
      TerraformVersion := some "0.12.0", Autoplan := none, ApplyRequirements := [] }
    (by decide)
  obtain ⟨ver, hver, hv2⟩ := hsome "0.12.0" rfl
  have hver2 : ver
      = { metadata := "", pre := "", segments := [0, 12, 0], original := "0.12.0" } := by
    have h : Examples.lib.NewVersion "0.12.0"
        = Except.ok { metadata := "", pre := "", segments := [0, 12, 0],
                      original := "0.12.0" } := rfl
    rw [h] at hver
    cases hver
    rfl
  exact ⟨v, hv, by rw [hv2, hver2]⟩

/-- C16. For a raw project entry whose `dir` is present, `ToValid` returns an entry whose
workflow name, name and apply requirements are those of the raw entry, unchanged: an absent
workflow or name stays absent, a present one keeps its value, and the apply requirements are the
raw list (the absent list stays empty). -/
theorem C16_pass_through (L : Stdlib) (A : raw.AutoplanOps) (p : raw.Project)
    (dir : String) (hdir : p.Dir = some dir) :
    ∃ v : valid.Project,
      p.ToValid L A = Result.ret v ∧
      v.Workflow = p.Workflow ∧ v.Name = p.Name ∧ v.ApplyRequirements = p.ApplyRequirements ∧
      (p.Workflow = none → v.Workflow = none) ∧
      (p.Name = none → v.Name = none) ∧
      (p.ApplyRequirements = [] → v.ApplyRequirements = []) :=
  ⟨_, raw.ToValid_of_Dir L A p dir hdir, rfl, rfl, rfl, fun h => h, fun h => h, fun h => h⟩

/-- C16 at an entry with a workflow, no name and one apply requirement. -/
theorem C16_pass_through_witness :
    ∃ v : valid.Project,
      raw.Project.ToValid Examples.lib Examples.autoplanOps
          { Name := none, Dir := some "subdir", Workspace := none, Workflow := some "custom",
            TerraformVersion := none, Autoplan := none, ApplyRequirements := ["approved"] }
        = Result.ret v ∧
      v.Workflow = some "custom" ∧ v.Name = none ∧ v.ApplyRequirements = ["approved"] := by
  obtain ⟨v, hv, hw, hn, hr, _⟩ := C16_pass_through Examples.lib Examples.autoplanOps
    { Name := none, Dir := some "subdir", Workspace := none, Workflow := some "custom",
      TerraformVersion := none, Autoplan := none, ApplyRequirements := ["approved"] }
    "subdir" rfl
  exact ⟨v, hv, hw, hn, hr⟩

/-! ## The claims on unrecognised tags, empty stages and the `..` check -/

namespace runtime

/-- On an unrecognised tag the `switch` leaves the step `nil`. -/
theorem stepOfConfig_unrecognised (m : StepMeta) (sc : yaml.StepConfig)
    (htag : sc.StepType ∉ ["init", "plan", "apply", "run"]) :
    stepOfConfig m sc = none := by
  simp only [List.mem_cons, List.mem_singleton, List.not_mem_nil, or_false, not_or] at htag
  obtain ⟨h1, h2, h3, h4⟩ := htag
  simp [stepOfConfig, h1, h2, h3, h4]

/-- Position by position, the mapped list holds `nil` under an unrecognised tag and the variant
of the tag under a recognised one. -/
theorem map_stepOfConfig_any (m : StepMeta) (cfg : List yaml.StepConfig)
    (i : Nat) (sc : yaml.StepConfig) (hi : cfg[i]? = some sc) :
    (sc.StepType ∉ ["init", "plan", "apply", "run"] →
      (cfg.map (stepOfConfig m))[i]? = some none) ∧
    (sc.StepType = "init" → (cfg.map (stepOfConfig m))[i]?
      = some (some (Step.init { ExtraArgs := sc.ExtraArgs, Meta := m }))) ∧
    (sc.StepType = "plan" → (cfg.map (stepOfConfig m))[i]?
      = some (some (Step.plan { ExtraArgs := sc.ExtraArgs, Meta := m }))) ∧
    (sc.StepType = "apply" → (cfg.map (stepOfConfig m))[i]?
      = some (some (Step.apply { ExtraArgs := sc.ExtraArgs, Meta := m }))) ∧
    (sc.StepType = "run" → (cfg.map (stepOfConfig m))[i]?
      = some (some (Step.run { Commands := sc.Run, Meta := m }))) := by
  have hget : (cfg.map (stepOfConfig m))[i]? = some (stepOfConfig m sc) := by
    rw [List.getElem?_map, hi]; rfl
  rw [hget]
  refine ⟨?_, ?_, ?_, ?_, ?_⟩
  · intro h
    rw [stepOfConfig_unrecognised m sc h]
  all_goals
    intro h
    simp [stepOfConfig, h]

end runtime

/-- C17. When the configuration is read without error and the first project entry matching
`(relProjectPath, workspace)` names a workflow found in the workflows map, `BuildPlanStage` and
`BuildApplyStage` do not fail, whatever the type tags of the step configurations: they return a
step list as long as the configured list of the stage, in which every position with a tag other
than `init`, `plan`, `apply`, `run` holds an absent (`nil`) step and every position with one of
these tags holds the variant of the tag. -/
theorem C17_unknown_tag_nil_step (L : Stdlib) (s : ExecutionPlanner) (log : Handle)
    (repoDir workspace relProjectPath : String) (extraCommentArgs : List String)
    (username : String) (config : yaml.Config) (p : yaml.Project) (workflow : yaml.Workflow)
    (hread : s.ParserValidator.ReadConfig repoDir = (config, none))
    (hfirst : config.Projects.find?
      (fun q => decide (q.Dir = relProjectPath ∧ q.Workspace = workspace)) = some p)
    (hname : p.Workflow ≠ "")
    (hwf : config.Workflows.lookup p.Workflow = some workflow) :
    (
      ∃ steps : List (Option Step),
        s.BuildPlanStage L log repoDir workspace relProjectPath extraCommentArgs username
          = Except.ok { Steps := steps } ∧
        steps.length = workflow.Plan.Steps.length ∧
        ∀ (i : Nat) (sc : yaml.StepConfig), workflow.Plan.Steps[i]? = some sc →
          (sc.StepType ∉ ["init", "plan", "apply", "run"] → steps[i]? = some none) ∧
          (sc.StepType = "init" → steps[i]? = some (some (Step.init
            { ExtraArgs := sc.ExtraArgs
              Meta := s.buildMeta L log repoDir workspace relProjectPath extraCommentArgs
                username }))) ∧
          (sc.StepType = "plan" → steps[i]? = some (some (Step.plan
            { ExtraArgs := sc.ExtraArgs
              Meta := s.buildMeta L log repoDir workspace relProjectPath extraCommentArgs
                username }))) ∧
          (sc.StepType = "apply" → steps[i]? = some (some (Step.apply
            { ExtraArgs := sc.ExtraArgs
              Meta := s.buildMeta L log repoDir workspace relProjectPath extraCommentArgs
                username }))) ∧
          (sc.StepType = "run" → steps[i]? = some (some (Step.run
            { Commands := sc.Run
              Meta := s.buildMeta L log repoDir workspace relProjectPath extraCommentArgs
                username })))) ∧
    (
      ∃ steps : List (Option Step),
        s.BuildApplyStage L log repoDir workspace relProjectPath extraCommentArgs username
          = Except.ok { Steps := steps } ∧
        steps.length = workflow.Apply.Steps.length ∧
        ∀ (i : Nat) (sc : yaml.StepConfig), workflow.Apply.Steps[i]? = some sc →
          (sc.StepType ∉ ["init", "plan", "apply", "run"] → steps[i]? = some none) ∧
          (sc.StepType = "init" → steps[i]? = some (some (Step.init
            { ExtraArgs := sc.ExtraArgs
              Meta := s.buildMeta L log repoDir workspace relProjectPath extraCommentArgs
                username }))) ∧
          (sc.StepType = "plan" → steps[i]? = some (some (Step.plan
            { ExtraArgs := sc.ExtraArgs
              Meta := s.buildMeta L log repoDir workspace relProjectPath extraCommentArgs
                username }))) ∧
          (sc.StepType = "apply" → steps[i]? = some (some (Step.apply
            { ExtraArgs := sc.ExtraArgs
              Meta := s.buildMeta L log repoDir workspace relProjectPath extraCommentArgs
                username }))) ∧
          (sc.StepType = "run" → steps[i]? = some (some (Step.run
            { Commands := sc.Run
              Meta := s.buildMeta L log repoDir workspace relProjectPath extraCommentArgs
                username })))) := by
  constructor
  · refine ⟨workflow.Plan.Steps.map (stepOfConfig
      (s.buildMeta L log repoDir workspace relProjectPath extraCommentArgs username)), ?_, ?_, ?_⟩
    · simp only [ExecutionPlanner.BuildPlanStage]
      rw [buildStage_workflow L s PlanStageName log repoDir workspace relProjectPath
        extraCommentArgs username _ config p workflow hread hfirst hname hwf]
      simp
    · simp
    · intro i sc hi
      exact map_stepOfConfig_any _ _ i sc hi
  · refine ⟨workflow.Apply.Steps.map (stepOfConfig
      (s.buildMeta L log repoDir workspace relProjectPath extraCommentArgs username)), ?_, ?_, ?_⟩
    · simp only [ExecutionPlanner.BuildApplyStage]
      rw [buildStage_workflow L s ApplyStageName log repoDir workspace relProjectPath
        extraCommentArgs username _ config p workflow hread hfirst hname hwf]
      have hne : ¬ (ApplyStageName = PlanStageName) := by decide
      simp [hne]
    · simp
    · intro i sc hi
      exact map_stepOfConfig_any _ _ i sc hi

/-- C17 at the example workflow `odd`, whose plan stage has the tags `init`, `validate`,
`plan`: the plan stage is returned with three entries, the second of them `nil`. -/
theorem C17_unknown_tag_nil_step_witness :
    ∃ steps : List (Option Step),
      (Examples.planner Examples.oddConfig none).BuildPlanStage Examples.lib Examples.log
          "/repo" "default" "proj" [] "alice" = Except.ok { Steps := steps } ∧
      steps.length = 3 ∧
      steps[1]? = some none ∧
      steps[2]? = some (some (Step.plan
        { ExtraArgs := ["-foo"]
          Meta := (Examples.planner Examples.oddConfig none).buildMeta Examples.lib Examples.log
            "/repo" "default" "proj" [] "alice" })) := by
  obtain ⟨steps, hok, hlen, hpos⟩ :=
    (C17_unknown_tag_nil_step Examples.lib (Examples.planner Examples.oddConfig none)
      Examples.log "/repo" "default" "proj" [] "alice" Examples.oddConfig
      { Dir := "proj", Workspace := "default", Workflow := "odd" } Examples.oddWorkflow
      rfl (by decide) (by decide) (by decide)).1
  exact ⟨steps, hok, hlen,
    (hpos 1 { StepType := "validate", ExtraArgs := ["-x"], Run := ["ls"] } rfl).1 (by decide),
    (hpos 2 { StepType := "plan", ExtraArgs := ["-foo"], Run := [] } rfl).2.2.1 rfl⟩

/-- C18. When the configuration is read without error and the first project entry matching
`(relProjectPath, workspace)` names a workflow found in the workflows map whose step list for
the requested stage is empty, `BuildPlanStage` (for an empty plan list) and `BuildApplyStage`
(for an empty apply list) return without error a stage with no step, which is not the default
stage. -/
theorem C18_empty_stage_no_fallback (L : Stdlib) (s : ExecutionPlanner) (log : Handle)
    (repoDir workspace relProjectPath : String) (extraCommentArgs : List String)
    (username : String) (config : yaml.Config) (p : yaml.Project) (workflow : yaml.Workflow)
    (hread : s.ParserValidator.ReadConfig repoDir = (config, none))
    (hfirst : config.Projects.find?
      (fun q => decide (q.Dir = relProjectPath ∧ q.Workspace = workspace)) = some p)
    (hname : p.Workflow ≠ "")
    (hwf : config.Workflows.lookup p.Workflow = some workflow) :
    (workflow.Plan.Steps = [] →
      s.BuildPlanStage L log repoDir workspace relProjectPath extraCommentArgs username
        = Except.ok { Steps := [] } ∧
      s.BuildPlanStage L log repoDir workspace relProjectPath extraCommentArgs username
        ≠ Except.ok
          { Steps := s.defaultPlanSteps L log repoDir workspace relProjectPath extraCommentArgs
              username }) ∧
    (workflow.Apply.Steps = [] →
      s.BuildApplyStage L log repoDir workspace relProjectPath extraCommentArgs username
        = Except.ok { Steps := [] } ∧
      s.BuildApplyStage L log repoDir workspace relProjectPath extraCommentArgs username
        ≠ Except.ok
          { Steps := s.defaultApplySteps L log repoDir workspace relProjectPath extraCommentArgs
              username }) := by
  constructor
  · intro hempty
    have hok : s.BuildPlanStage L log repoDir workspace relProjectPath extraCommentArgs username
        = Except.ok { Steps := [] } := by
      simp only [ExecutionPlanner.BuildPlanStage]
      rw [buildStage_workflow L s PlanStageName log repoDir workspace relProjectPath
        extraCommentArgs username _ config p workflow hread hfirst hname hwf]
      simp [hempty]
    refine ⟨hok, ?_⟩
    rw [hok]
    simp [ExecutionPlanner.defaultPlanSteps]
  · intro hempty
    have hok : s.BuildApplyStage L log repoDir workspace relProjectPath extraCommentArgs username
        = Except.ok { Steps := [] } := by
      simp only [ExecutionPlanner.BuildApplyStage]
      rw [buildStage_workflow L s ApplyStageName log repoDir workspace relProjectPath
        extraCommentArgs username _ config p workflow hread hfirst hname hwf]
      have hne : ¬ (ApplyStageName = PlanStageName) := by decide
      simp [hne, hempty]
    refine ⟨hok, ?_⟩
    rw [hok]
    simp [ExecutionPlanner.defaultApplySteps]

/-- C18 at the example workflow `odd`, whose apply stage has no step. -/
theorem C18_empty_stage_no_fallback_witness :
    (Examples.planner Examples.oddConfig none).BuildApplyStage Examples.lib Examples.log
        "/repo" "default" "proj" [] "alice" = Except.ok { Steps := [] } :=
  ((C18_empty_stage_no_fallback Examples.lib (Examples.planner Examples.oddConfig none)
      Examples.log "/repo" "default" "proj" [] "alice" Examples.oddConfig
      { Dir := "proj", Workspace := "default", Workflow := "odd" } Examples.oddWorkflow
      rfl (by decide) (by decide) (by decide)).2 rfl).1

/-- C19. With valid apply requirements and no pinned version, `Validate` accepts a raw project
entry if and only if its `dir` is present, not empty and does not contain the two-character
string `..` at any offset. So the `dir` `foo..bar`, none of whose segments is `..`, is rejected,
and a `dir` pointing to the empty string is rejected with the same error `cannot be blank` as an
absent `dir`. -/
theorem C19_dotdot_substring (L : Stdlib) (p : raw.Project)
    (hreqs : ∀ r ∈ p.ApplyRequirements, r = raw.ApprovedApplyRequirement)
    (htf : p.TerraformVersion = none) :
    (p.Validate L = Result.ret none
      ↔ ∃ dir, p.Dir = some dir ∧ dir ≠ "" ∧ Contains dir ".." = false) ∧
    (Contains "foo..bar" ".." = true ∧ raw.hasParentSegment "foo..bar" = false ∧
      (p.Dir = some "foo..bar" →
        p.Validate L
          = Result.ret (some [("Dir", GoError.errorString "cannot contain '..'")]))) ∧
    (p.Dir = some "" →
      p.Validate L = Result.ret (some [("Dir", GoError.errorString "cannot be blank")])) ∧
    (p.Dir = none →
      p.Validate L = Result.ret (some [("Dir", GoError.errorString "cannot be blank")])) := by
  have hfind : p.ApplyRequirements.find?
      (fun r => decide (r ≠ raw.ApprovedApplyRequirement)) = none := by
    rw [List.find?_eq_none]
    intro r hr
    simpa using hreqs r hr
  have hfail : ∀ err : GoError,
      validation.Validate p.Dir [validation.Required, validation.By raw.hasDotDot]
        = Result.ret (some err) →
      p.Validate L = Result.ret (some [("Dir", err)]) := by
    intro err herr
    unfold raw.Project.Validate
    rw [herr, htf, raw.Validate_single, raw.Validate_single]
    simp only [validation.By, raw.validApplyReq_eq, raw.validTFVersion_eq, hfind]
    simp [validation.ValidateStruct, validation.collect]
  refine ⟨?_, ⟨by decide, by decide, ?_⟩, ?_, ?_⟩
  · rw [raw.Validate_ret_none_iff]
    constructor
    · intro h
      exact h.1
    · intro h
      exact ⟨h, hreqs, by simp [htf]⟩
  · intro hdir
    apply hfail
    rw [hdir]
    exact raw.Validate_Dir_dotdot "foo..bar" (by decide)
  · intro hdir
    apply hfail
    rw [hdir]
    simp [validation.Validate, validation.Required]
  · intro hdir
    apply hfail
    rw [hdir]
    exact raw.Validate_Dir_nil

/-- C19 at entries with `dir: foo..bar`, `dir: ""` and `dir: a.b/c`. -/
theorem C19_dotdot_substring_witness :
    raw.Project.Validate Examples.lib
        { Name := none, Dir := some "foo..bar", Workspace := none, Workflow := none,
          TerraformVersion := none, Autoplan := none, ApplyRequirements := ["approved"] }
      = Result.ret (some [("Dir", GoError.errorString "cannot contain '..'")]) ∧
    raw.Project.Validate Examples.lib
        { Name := none, Dir := some "", Workspace := none, Workflow := none,
          TerraformVersion := none, Autoplan := none, ApplyRequirements := ["approved"] }
      = Result.ret (some [("Dir", GoError.errorString "cannot be blank")]) ∧
    raw.Project.Validate Examples.lib
        { Name := none, Dir := some "a.b/c", Workspace := none, Workflow := none,
          TerraformVersion := none, Autoplan := none, ApplyRequirements := ["approved"] }
      = Result.ret none :=
  ⟨(C19_dotdot_substring Examples.lib _ (by decide) rfl).2.1.2.2 rfl,
   (C19_dotdot_substring Examples.lib _ (by decide) rfl).2.2.1 rfl,
   (C19_dotdot_substring Examples.lib
      { Name := none, Dir := some "a.b/c", Workspace := none, Workflow := none,
        TerraformVersion := none, Autoplan := none, ApplyRequirements := ["approved"] }
      (by decide) rfl).1.mpr ⟨"a.b/c", rfl, by decide, by decide⟩⟩

end Atlantis
